import Mathlib

/-!
mtest: a verification development.

A shallow embedding of the orchestration core of `illusionfield/mtest`
(`internal/app`, `internal/config`, `internal/logging`, `internal/process`):
the configuration record, the two buffered channels of `App`, the `select`
loop of `App.Run`, `App.Shutdown`, the command line built by
`App.startMeteor`, the ready-marker detector, the port resolver, the verbosity
flag, the test poller, the console relay, the browser session, the output
streamers, the Unix process termination, the end of `main` in
`cmd/mtest/main.go`, and the legacy `waitForPage` of `src/main.go`.

Conventions.
* Go `int` values carried through unchanged (exit codes, ports) are `Int`.
* Go strings are Lean strings; `strings.Contains` is a scan over the
  characters.
* A goroutine interleaving is an explicit list of actions; a `select` with
  several ready cases is resolved by the action that names the chosen case.
* Calls into the operating system or the browser are answered by an explicit
  environment argument and recorded in a trace of effects.
* A JSON number is the rational number written in the text; the float64 that
  Go decodes it to is that number rounded to a significand of 53 bits
  (`toFloat64`). Library functions whose exact output is not fixed here
  (`json.Marshal`, `fmt.Sprint`, `strings.ToLower`) are arguments.
* A loop that waits for events runs along the list of events it receives and
  yields `none` while none of them has made it return.
-/

namespace Mtest

/-! ## Logging -/

/-- The logrus levels used by the orchestrator. -/
inductive Level where
  | trace | debug | info | warn | error
  deriving DecidableEq, Repr

/-- One log call: level, message and the structured fields attached to it. -/
structure LogEntry where
  level : Level
  msg : String
  fields : List (String × String) := []
  deriving DecidableEq, Repr

/-! ## Configuration (`internal/config/config.go`) -/

/-- The record `config.Config`. -/
structure Config where
  PackageName : String := ""
  Release : String := ""
  SettingsPath : String := ""
  TestAppPath : String := ""
  Once : Bool := false
  Inspect : Bool := false
  InspectBrk : Bool := false
  Port : Int := 0
  Verbosity : Int := 0
  deriving DecidableEq, Repr

/-! ## Channels -/

/-- A buffered Go channel: its capacity and the values waiting in its buffer,
oldest first. -/
structure Chan (α : Type) where
  cap : Nat
  buf : List α
  deriving DecidableEq, Repr

/-- The channel `make(chan T, cap)`: empty buffer of the given capacity. -/
def Chan.make {α : Type} (cap : Nat) : Chan α := ⟨cap, []⟩

/-- A send that does not wait: `some` of the new channel when the buffer has
room, `none` when the send would block. -/
def Chan.trySend {α : Type} (ch : Chan α) (v : α) : Option (Chan α) :=
  if ch.buf.length < ch.cap then some { ch with buf := ch.buf ++ [v] } else none

/-- A receive that does not wait: the oldest value and the remaining channel,
`none` when the buffer is empty (the receive would block). -/
def Chan.tryRecv {α : Type} (ch : Chan α) : Option (α × Chan α) :=
  match ch.buf with
  | [] => none
  | v :: rest => some (v, { ch with buf := rest })

/-! ## The application record (`internal/app/app.go`) -/

/-- The non-nil results of `cmd.Wait()`: an `*exec.ExitError` with its exit
code, or any other error with its message. -/
inductive WaitError where
  | exitError (code : Int)
  | other (msg : String)
  deriving DecidableEq, Repr

/-- An `*exec.Cmd`: program, arguments and, once started, the process id. -/
structure Cmd where
  path : String
  args : List String
  process : Option Int := none
  deriving DecidableEq, Repr

/-- A handle on a connected `*rod.Browser`. -/
structure Browser where
  controlURL : String
  deriving DecidableEq, Repr

/-- A handle on a `*rod.Page`. -/
structure Page where
  target : Nat
  deriving DecidableEq, Repr

/-- The struct `App`. A `sync.Once` is the flag "already done"; the mutex
`consoleMu` has no state in a sequential trace and is left out. -/
structure App where
  cfg : Config
  port : Int := 0
  meteorCmd : Option Cmd := none
  testsResult : Chan Int
  meteorExit : Chan (Option WaitError)
  startChromeOnce : Bool := false
  shutdownOnce : Bool := false
  browser : Option Browser := none
  page : Option Page := none
  deriving DecidableEq, Repr

/-- The constructor `New`: both channels have a one-slot buffer. -/
def New (cfg : Config) : App :=
  { cfg := cfg, testsResult := Chan.make 1, meteorExit := Chan.make 1 }

/-! ## The event loop of `App.Run` -/

/-- The three cases of the `select` in `App.Run`. -/
inductive SelectCase where
  | ctxDone
  | meteorExit
  | testsResult
  deriving DecidableEq, Repr

/-- What one pass through the `select` produced: the log lines written, the
application afterwards, and the exit code when the pass returned from `Run`
(`none`: the `for` loop goes round again). -/
structure Pass where
  logs : List LogEntry
  app : App
  exit : Option Int
  deriving DecidableEq, Repr

/-- The body of the case `err := <-a.meteorExit`. -/
def meteorExitCase (a : App) (err : Option WaitError) : Pass :=
  let l0 : LogEntry := ⟨.trace, "received meteor exit notification", []⟩
  match err with
  | some (.exitError code) =>
    if code ≠ 0 then
      ⟨[l0, ⟨.error, "Meteor process exited unexpectedly", [("code", toString code)]⟩], a, some 1⟩
    else
      ⟨[l0], a, some 1⟩
  | some (.other msg) =>
    ⟨[l0, ⟨.error, "Meteor process exited", [("error", msg)]⟩], a, some 1⟩
  | none =>
    ⟨[l0, ⟨.info, "Meteor process exited cleanly", []⟩], a, some 0⟩

/-- The body of the case `code := <-a.testsResult`. -/
def testsResultCase (a : App) (code : Int) : Pass :=
  let l0 : LogEntry := ⟨.trace, "testsResult received from browser monitoring", [("status", toString code)]⟩
  let l1 : LogEntry := ⟨.info, "tests finished", [("status", toString code)]⟩
  if a.cfg.Once then
    ⟨[l0, l1], a, some code⟩
  else
    ⟨[l0, l1, ⟨.debug, "test run completed in watch mode; awaiting next cycle", []⟩], a, none⟩

/-- One pass through the `select` of `App.Run` when the runtime picks case `c`.
`ctxDone` says whether `ctx.Done()` is closed. The result is `none` when case
`c` is not ready, so that the runtime cannot pick it. -/
def selectPass (a : App) (ctxDone : Bool) (c : SelectCase) : Option Pass :=
  match c with
  | .ctxDone =>
    if ctxDone then
      some ⟨[⟨.debug, "context cancelled, initiating shutdown", []⟩,
             ⟨.info, "signal received, shutting down", []⟩], a, some 0⟩
    else none
  | .meteorExit =>
    match a.meteorExit.tryRecv with
    | some (err, ch) => some (meteorExitCase { a with meteorExit := ch } err)
    | none => none
  | .testsResult =>
    match a.testsResult.tryRecv with
    | some (code, ch) => some (testsResultCase { a with testsResult := ch } code)
    | none => none

/-- The publish at the end of `startBrowser`:
`select { case a.testsResult <- code: ... default: ... }` followed by the
watch-mode warning. -/
def publishResult (a : App) (code : Int) : App × List LogEntry :=
  let r : App × List LogEntry :=
    match a.testsResult.trySend code with
    | some ch =>
      ({ a with testsResult := ch },
        [⟨.trace, "dispatched test result to channel", [("status", toString code)]⟩])
    | none =>
      (a, [⟨.trace, "testsResult channel already populated; skipping dispatch", []⟩])
  if !a.cfg.Once && code ≠ 0 then
    (r.1, r.2 ++ [⟨.warn, "tests finished with failures", [("failures", toString code)]⟩])
  else r

/-- The send `a.meteorExit <- cmd.Wait()` of the wait goroutine. It blocks
while the buffer is full: the application is then unchanged. -/
def notifyExit (a : App) (err : Option WaitError) : App :=
  match a.meteorExit.trySend err with
  | some ch => { a with meteorExit := ch }
  | none => a

/-- One step of an interleaving of the main loop with its three sources. -/
inductive Action where
  -- the caller cancels the context passed to Run
  | cancel
  -- the wait goroutine reports the result of cmd.Wait()
  | exited (err : Option WaitError)
  -- the browser goroutine reaches its non-blocking publish with this code
  | publish (code : Int)
  -- the select of the main loop proceeds with the named case
  | pick (c : SelectCase)
  deriving DecidableEq, Repr

/-- Where the main loop stands: still inside the `for`, or returned. -/
inductive Loop where
  | waiting (a : App) (ctxDone : Bool) (logs : List LogEntry)
  | returned (code : Int) (a : App) (logs : List LogEntry)
  deriving DecidableEq, Repr

/-- The exit code of a loop that has returned. -/
def Loop.exitCode : Loop → Option Int
  | .waiting _ _ _ => none
  | .returned code _ _ => some code

/-- The log written by the loop so far. -/
def Loop.logs : Loop → List LogEntry
  | .waiting _ _ logs => logs
  | .returned _ _ logs => logs

/-- One action of the interleaving. Once `Run` has returned nothing more
happens to its result; a `pick` of a case that is not ready leaves the loop
blocked in its `select`. -/
def Loop.step : Loop → Action → Loop
  | .returned code a logs, _ => .returned code a logs
  | .waiting a _ logs, .cancel => .waiting a true logs
  | .waiting a ctxDone logs, .exited err => .waiting (notifyExit a err) ctxDone logs
  | .waiting a ctxDone logs, .publish code =>
    let r := publishResult a code
    .waiting r.1 ctxDone (logs ++ r.2)
  | .waiting a ctxDone logs, .pick c =>
    match selectPass a ctxDone c with
    | none => .waiting a ctxDone logs
    | some p =>
      match p.exit with
      | some code => .returned code p.app (logs ++ p.logs)
      | none => .waiting p.app ctxDone (logs ++ p.logs)

/-- The `for { select { ... } }` of `App.Run` along an interleaving. -/
def runLoop (s : Loop) (sched : List Action) : Loop :=
  sched.foldl Loop.step s

/-- The loop as `Run` enters it: context live, nothing logged by the loop. -/
def enterLoop (a : App) : Loop := .waiting a false []

/-! ## Effects on the outside world -/

/-- A call that leaves the program, or a log line, in the order performed. -/
inductive Effect where
  | log (e : LogEntry)
  | terminate (cmd : Cmd)
  | pageClose (p : Page)
  | browserClose (b : Browser)
  | listen (port : Int) (ok : Bool)
  | listenerClose (port : Int)
  deriving DecidableEq, Repr

/-! ## `App.Shutdown` -/

/-- The errors returned by the three release calls of `Shutdown`
(`process.Terminate`, `page.Close`, `browser.Close`); `none` is `nil`. -/
structure ShutdownEnv where
  terminateErr : Option String := none
  pageCloseErr : Option String := none
  browserCloseErr : Option String := none
  deriving DecidableEq, Repr

/-- The block `if a.meteorCmd != nil { ... }` of `Shutdown`. -/
def shutdownMeteor (env : ShutdownEnv) (a : App) : App × List Effect :=
  match a.meteorCmd with
  | some cmd =>
    let errLog : List Effect :=
      match env.terminateErr with
      | some e => [.log ⟨.debug, "meteor termination error", [("error", e)]⟩]
      | none => []
    ({ a with meteorCmd := none }, .terminate cmd :: errLog)
  | none => (a, [])

/-- The block `if a.page != nil { ... }` of `Shutdown`. -/
def shutdownPage (env : ShutdownEnv) (a : App) : App × List Effect :=
  match a.page with
  | some p =>
    let errLog : List Effect :=
      match env.pageCloseErr with
      | some e => [.log ⟨.debug, "browser page close failed", [("error", e)]⟩]
      | none => []
    ({ a with page := none },
      .log ⟨.trace, "closing browser page", []⟩ :: .pageClose p :: errLog)
  | none => (a, [])

/-- The block `if a.browser != nil { ... }` of `Shutdown`. -/
def shutdownBrowser (env : ShutdownEnv) (a : App) : App × List Effect :=
  match a.browser with
  | some b =>
    let errLog : List Effect :=
      match env.browserCloseErr with
      | some e => [.log ⟨.debug, "browser close failed", [("error", e)]⟩]
      | none => []
    ({ a with browser := none },
      .log ⟨.trace, "closing browser instance", []⟩ :: .browserClose b :: errLog)
  | none => (a, [])

/-- The method `App.Shutdown`: `shutdownOnce.Do` runs the body on the first
call only. -/
def Shutdown (env : ShutdownEnv) (a : App) : App × List Effect :=
  if a.shutdownOnce then (a, [])
  else
    let r1 := shutdownMeteor env a
    let r2 := shutdownPage env r1.1
    let r3 := shutdownBrowser env r2.1
    ({ r3.1 with shutdownOnce := true },
      .log ⟨.debug, "shutting down application resources", []⟩ :: (r1.2 ++ r2.2 ++ r3.2))

/-! ## `App.startMeteor` (`internal/app/meteor.go`) -/

/-- The function `strconv.Itoa`: the decimal form of an integer. -/
def Itoa (n : Int) : String := toString n

/-- The argument slice `args` built at the top of `startMeteor`, one
conditional `append` after the other. -/
def meteorArgs (a : App) : List String :=
  let args := ["test-packages", "--driver-package", "test-in-console", "-p", Itoa a.port, a.cfg.PackageName]
  let args := if a.cfg.Once then args ++ ["--once"] else args
  let args := if a.cfg.Release ≠ "" then args ++ ["--release", a.cfg.Release] else args
  let args := if a.cfg.Inspect then args ++ ["--inspect"] else args
  let args := if a.cfg.InspectBrk then args ++ ["--inspect-brk"] else args
  let args := if a.cfg.SettingsPath ≠ "" then args ++ ["--settings", a.cfg.SettingsPath] else args
  let args := if a.cfg.TestAppPath ≠ "" then args ++ ["--test-app-path", a.cfg.TestAppPath] else args
  args

/-- What `startMeteor` asks of its platform: `runtime.GOOS`, the variable
`COMSPEC`, the errors of the two pipe calls and of `cmd.Start`, and the process
id of the started process. -/
structure MeteorEnv where
  goos : String := "linux"
  comspec : String := ""
  stdoutPipeErr : Option String := none
  stderrPipeErr : Option String := none
  startErr : Option String := none
  pid : Int := 1
  deriving DecidableEq, Repr

/-- The command `cmd` of `startMeteor` before it is started. -/
def meteorCommand (env : MeteorEnv) (a : App) : Cmd :=
  if env.goos = "windows" then
    let comspec := if env.comspec = "" then "cmd.exe" else env.comspec
    { path := comspec, args := ["/c", "meteor"] ++ meteorArgs a }
  else
    { path := "meteor", args := meteorArgs a }

/-- The method `App.startMeteor` up to the launch of its goroutines: the
application afterwards and the error returned. -/
def startMeteor (env : MeteorEnv) (a : App) : App × Option String :=
  let cmd := meteorCommand env a
  match env.stdoutPipeErr with
  | some e => (a, some e)
  | none =>
    match env.stderrPipeErr with
    | some e => (a, some e)
    | none =>
      match env.startErr with
      | some e => (a, some e)
      | none => ({ a with meteorCmd := some { cmd with process := some env.pid } }, none)

/-! ## The ready detector (`internal/app/console.go`, `constants.go`) -/

/-- The constant `consoleSentinel`. -/
def consoleSentinel : String := "##_meteor_magic##state: done"

/-- The variable `readyMarkers`. -/
def readyMarkers : List String := ["10015", "test-in-console listening"]

/-- Whether the second list is an initial segment of the first. -/
def startsWith : List Char → List Char → Bool
  | _, [] => true
  | [], _ :: _ => false
  | c :: cs, d :: ds => c == d && startsWith cs ds

/-- Whether the second list occurs in the first, tried at every offset from
the left. -/
def containsChars : List Char → List Char → Bool
  | [], sub => startsWith [] sub
  | c :: cs, sub => startsWith (c :: cs) sub || containsChars cs sub

/-- The function `strings.Contains`. -/
def Contains (s substr : String) : Bool := containsChars s.data substr.data

/-- The loop `for _, marker := range markers` of `containsReadyMarker`. -/
def containsMarkerIn (line : String) : List String → Bool
  | [] => false
  | marker :: rest => if Contains line marker then true else containsMarkerIn line rest

/-- The method `App.containsReadyMarker`. -/
def containsReadyMarker (_a : App) (line : String) : Bool :=
  containsMarkerIn line readyMarkers

/-- The log line that the loop of `containsReadyMarker` writes: one trace line
naming the first marker that the line contains, nothing when it contains
none. -/
def markerLogs (line : String) : List String → List LogEntry
  | [] => []
  | marker :: rest =>
    if Contains line marker then
      [⟨.trace, "ready marker matched in meteor output", [("marker", marker)]⟩]
    else markerLogs line rest

/-! ## The port resolver (`internal/app/ports.go`) -/

/-- The constant `defaultPortMin`. -/
def defaultPortMin : Int := 10000

/-- The constant `defaultPortMax`. -/
def defaultPortMax : Int := 12000

/-- The slice filled by `for p := defaultPortMin; p < defaultPortMax; p++`. -/
def portCandidates : List Int :=
  (List.range (defaultPortMax - defaultPortMin).toNat).map (fun (i : Nat) => defaultPortMin + Int.ofNat i)

/-- The closure `ports[i], ports[j] = ports[j], ports[i]`. -/
def swapPorts (ports : List Int) (i j : Nat) : List Int :=
  (ports.set i (ports.getD j 0)).set j (ports.getD i 0)

/-- The loop of `rand.Shuffle` from index `i` down to `1`: at each index the
source draws `rnd i`, reduced to `j` in `[0, i]`, and positions `i` and `j`
are swapped. -/
def shuffleFrom (rnd : Nat → Nat) : Nat → List Int → List Int
  | 0, ports => ports
  | i + 1, ports => shuffleFrom rnd i (swapPorts ports (i + 1) (rnd (i + 1) % (i + 2)))

/-- The call `rng.Shuffle(len(ports), swap)`. -/
def Shuffle (rnd : Nat → Nat) (ports : List Int) : List Int :=
  shuffleFrom rnd (ports.length - 1) ports

/-- What `resolvePort` asks of its platform: the draws of the random source
and, for each port, whether `net.Listen` on it succeeds. -/
structure PortEnv where
  rnd : Nat → Nat
  listen : Int → Bool

/-- The loop `for _, port := range ports` of `resolvePort` with the two
statements after it: the pair returned and the effects performed. -/
def probePorts (listen : Int → Bool) : List Int → (Int × Option String) × List Effect
  | [] =>
    ((0, some "no available port found in range 10000-11999"),
      [.log ⟨.debug, "exhausted port range without finding a free port", []⟩])
  | port :: rest =>
    if listen port then
      ((port, none),
        [.log ⟨.trace, "probing port availability", [("port", Itoa port)]⟩,
         .listen port true, .listenerClose port,
         .log ⟨.debug, "discovered available port", [("port", Itoa port)]⟩])
    else
      let r := probePorts listen rest
      (r.1, .log ⟨.trace, "probing port availability", [("port", Itoa port)]⟩
              :: .listen port false :: r.2)

/-- The method `App.resolvePort`: the pair `(port, error)` returned and the
effects performed. -/
def resolvePort (env : PortEnv) (a : App) : (Int × Option String) × List Effect :=
  if a.cfg.Port > 0 then
    ((a.cfg.Port, none),
      [.log ⟨.debug, "using CLI-specified port", [("port", Itoa a.cfg.Port)]⟩])
  else
    let r := probePorts env.listen (Shuffle env.rnd portCandidates)
    (r.1, .log ⟨.debug, "no port specified; attempting dynamic discovery", []⟩ :: r.2)

/-! ## `App.Run` -/

/-- The method `App.Run` along an interleaving of its goroutines: port
resolution, subprocess start, then the event loop. -/
def Run (penv : PortEnv) (menv : MeteorEnv) (a : App) (sched : List Action) : Loop :=
  match (resolvePort penv a).1 with
  | (_, some _) => .returned 1 a []
  | (port, none) =>
    let a := { a with port := port }
    match startMeteor menv a with
    | (a, some _) => .returned 1 a []
    | (a, none) => runLoop (enterLoop a) sched

/-- The interleaving that delivers each test result in turn: the browser
goroutine publishes it, then the main loop receives it. -/
def deliver (codes : List Int) : List Action :=
  codes.flatMap (fun c => [Action.publish c, Action.pick SelectCase.testsResult])

/-- The line `log.WithField("status", code).Info("tests finished")`. -/
def testsFinishedLog (code : Int) : LogEntry :=
  ⟨.info, "tests finished", [("status", toString code)]⟩

/-- The entries of a log written at level `info`. -/
def infoLogs (logs : List LogEntry) : List LogEntry :=
  logs.filter (fun e => decide (e.level = Level.info))

/-- The actions that only move test results: a publish by the browser
goroutine or a receive of the test-result case. -/
def Action.movesResult : Action → Bool
  | .publish _ => true
  | .pick .testsResult => true
  | _ => false

/-- Whether an effect is a call of `process.Terminate`. -/
def Effect.isTerminate : Effect → Bool
  | .terminate _ => true
  | _ => false

/-- Whether an effect is a call of `page.Close`. -/
def Effect.isPageClose : Effect → Bool
  | .pageClose _ => true
  | _ => false

/-- Whether an effect is a call of `browser.Close`. -/
def Effect.isBrowserClose : Effect → Bool
  | .browserClose _ => true
  | _ => false

/-- Whether an effect is a log line. -/
def Effect.isLog : Effect → Bool
  | .log _ => true
  | _ => false

/-- The effects of a trace that are not log lines. -/
def calls (trace : List Effect) : List Effect :=
  trace.filter (fun e => !e.isLog)

/-- An application in the middle of a run: started subprocess, connected
browser, open page. -/
def runningApp : App :=
  { cfg := {}, port := 10555, meteorCmd := some ⟨"meteor", ["test-packages"], some 4242⟩,
    testsResult := Chan.make 1, meteorExit := Chan.make 1, startChromeOnce := true,
    browser := some ⟨"ws://127.0.0.1:9222"⟩, page := some ⟨0⟩ }

/-- A machine on which port 10007 is the only one that can be bound, with a
random source that always draws 0. -/
def onlyPort10007 : PortEnv :=
  { rnd := fun _ => 0, listen := fun p => decide (p = 10007) }

/-- A machine on which no port can be bound. -/
def noFreePort : PortEnv :=
  { rnd := fun _ => 0, listen := fun _ => false }

/-! ## Go library functions on strings (`strings`, `strconv`, `unicode`) -/

/-- The function `unicode.IsSpace`: tab, line feed, vertical tab, form feed,
carriage return, space, U+0085, U+00A0 and the other code points with the
Unicode property White_Space. -/
def isSpace (c : Char) : Bool :=
  (9 ≤ c.toNat && c.toNat ≤ 13) || c.toNat == 32 || c.toNat == 0x85 || c.toNat == 0xA0 ||
  c.toNat == 0x1680 || (0x2000 ≤ c.toNat && c.toNat ≤ 0x200A) || c.toNat == 0x2028 ||
  c.toNat == 0x2029 || c.toNat == 0x202F || c.toNat == 0x205F || c.toNat == 0x3000

/-- The characters of a string without its leading and trailing white space. -/
def trimChars (cs : List Char) : List Char :=
  ((cs.dropWhile isSpace).reverse.dropWhile isSpace).reverse

/-- The function `strings.TrimSpace`. -/
def TrimSpace (s : String) : String := ⟨trimChars s.data⟩

/-- The function `strings.Join`. -/
def Join (parts : List String) (sep : String) : String := sep.intercalate parts

/-- The value of a decimal digit, `none` for any other character. -/
def digitVal (c : Char) : Option Nat :=
  if 48 ≤ c.toNat ∧ c.toNat ≤ 57 then some (c.toNat - 48) else none

/-- The value of a run of decimal digits read from the left onto `acc`; `none`
when a character is not a digit. -/
def parseDigits : Nat → List Char → Option Nat
  | acc, [] => some acc
  | acc, c :: cs =>
    match digitVal c with
    | some d => parseDigits (acc * 10 + d) cs
    | none => none

/-- The leading sign of a numeral, if any, taken off: whether it is a minus,
and the rest. -/
def splitSign : List Char → Bool × List Char
  | '-' :: rest => (true, rest)
  | '+' :: rest => (false, rest)
  | cs => (false, cs)

/-- The integer with the given sign and absolute value. -/
def signedValue (neg : Bool) (v : Nat) : Int :=
  if neg then -(Int.ofNat v) else Int.ofNat v

/-- The least value of a Go `int` (64 bits). -/
def minInt : Int := -9223372036854775808

/-- The greatest value of a Go `int` (64 bits). -/
def maxInt : Int := 9223372036854775807

/-- The function `strconv.Atoi` where it returns a nil error: an optional sign,
then one or more decimal digits, the value within the range of `int`; `none`
stands for a non-nil error (syntax or range). -/
def Atoi (s : String) : Option Int :=
  if (splitSign s.data).2.isEmpty then none
  else
    match parseDigits 0 (splitSign s.data).2 with
    | none => none
    | some v =>
      if minInt ≤ signedValue (splitSign s.data).1 v ∧ signedValue (splitSign s.data).1 v ≤ maxInt
      then some (signedValue (splitSign s.data).1 v)
      else none

/-! ## The verbosity flag (`internal/logging/logging.go`) -/

/-- The struct `VerbosityValue`; `target = none` is a nil pointer, otherwise
the integer it points to. -/
structure VerbosityValue where
  target : Option Int
  limit : Int
  deriving DecidableEq, Repr

/-- The constructor `NewVerbosityValue`: a non-nil target is set to the
default level; the limit is 5. -/
def NewVerbosityValue (target : Option Int) (defLevel : Int) : VerbosityValue :=
  { target := target.map (fun _ => defLevel), limit := 5 }

/-- The level a name stands for in the `switch` of `Set`. -/
def levelOfName (name : String) : Option Int :=
  if name = "none" ∨ name = "silent" ∨ name = "off" then some 0
  else if name = "error" ∨ name = "err" then some 1
  else if name = "warn" ∨ name = "warning" then some 2
  else if name = "info" then some 3
  else if name = "debug" then some 4
  else if name = "trace" then some 5
  else none

/-- The method `VerbosityValue.Set`, which always returns a nil error: the
value afterwards. The argument `toLower` is `strings.ToLower`. -/
def VerbosityValue.Set (toLower : String → String) (v : VerbosityValue) (s : String) :
    VerbosityValue :=
  match v.target with
  | none => v
  | some level =>
    let s := TrimSpace s
    if s = "" then v
    else if s = "+" then
      if level < v.limit then { v with target := some (level + 1) } else v
    else
      match Atoi s with
      | some n => { v with target := some n }
      | none =>
        match levelOfName (toLower s) with
        | some n => { v with target := some n }
        | none => v

/-- The value after `n` calls `Set("+")`, one per occurrence of `-v`. -/
def increments (toLower : String → String) (v : VerbosityValue) : Nat → VerbosityValue
  | 0 => v
  | n + 1 => (increments toLower v n).Set toLower "+"

/-- The constant `defaultVerbosity` of `internal/config/config.go`. -/
def defaultVerbosity : Int := 3

/-! ## Errors and browser values -/

/-- A non-nil Go `error`: `context.Canceled`, an error made elsewhere with its
message, or `fmt.Errorf(pre + "%w", inner)`, which wraps `inner`. -/
inductive Error where
  | canceled
  | other (msg : String)
  | wrap (pre : String) (inner : Error)
  deriving DecidableEq, Repr

/-- The method `Error()`: the message of an error. -/
def Error.message : Error → String
  | .canceled => "context canceled"
  | .other msg => msg
  | .wrap pre inner => pre ++ inner.message

/-- The test `errors.Is(err, context.Canceled)`. -/
def Error.isCanceled : Error → Bool
  | .canceled => true
  | .other _ => false
  | .wrap _ inner => inner.isCanceled

/-- The function `errors.Unwrap`. -/
def Error.unwrap : Error → Option Error
  | .wrap _ inner => some inner
  | _ => none

/-- A JSON value behind a `gson.JSON`: nil, a bool, a number, a string, a
slice or a map. A number is the rational number that the JSON text writes;
`gson` decodes it to the nearest float64 (`toFloat64`), and the conversions
below read that float64. -/
inductive JSON where
  | null
  | bool (b : Bool)
  | number (q : Rat)
  | string (s : String)
  | array (items : List JSON)
  | object (fields : List (String × JSON))

/-- Functions of the Go standard library whose output is taken as given:
`fmt.Sprint` (the verb `%v`) and `json.Marshal` on decoded values,
`strings.ToLower`, and the implementation-specific result of converting to
`int` a float64 that does not fit. -/
structure Lib where
  sprint : JSON → String
  marshal : JSON → Except Error String
  toLower : String → String
  intOverflow : Int

/-- The method `gson.JSON.Str`: a string as itself, anything else through
`%v`. -/
def JSON.Str (lib : Lib) : JSON → String
  | .string s => s
  | v => lib.sprint v

/-- The method `gson.JSON.Bool`: a bool as itself, anything else `false`. -/
def JSON.Bool : JSON → Bool
  | .bool b => b
  | _ => false

/-- A finite float64, the Go type in which `gson` holds every JSON number: a
sign, an integer significand and a binary exponent, of value
`± mant · 2 ^ exp`. -/
structure Float64 where
  neg : Bool
  mant : Nat
  exp : Int
  deriving DecidableEq, Repr

/-- The quotient `num / den` rounded to the nearest natural number, a tie going
to the even one (the rounding of IEEE 754 arithmetic). -/
def roundHalfEven (num den : Nat) : Nat :=
  if 2 * (num % den) < den then num / den
  else if den < 2 * (num % den) then num / den + 1
  else if (num / den) % 2 = 0 then num / den
  else num / den + 1

/-- The binary logarithm of `n` rounded down, by repeated halving. -/
def log2Fuel : Nat → Nat → Nat
  | 0, _ => 0
  | fuel + 1, n => if 2 ≤ n then log2Fuel fuel (n / 2) + 1 else 0

/-- The position of the highest bit of `n`: the binary logarithm rounded
down, and 0 for 0. -/
def log2 (n : Nat) : Nat := log2Fuel n n

/-- The binary logarithm of the positive fraction `p / d`, rounded down. -/
def floorLog2 (p d : Nat) : Int :=
  if log2 d ≤ log2 p then
    (if d * 2 ^ (log2 p - log2 d) ≤ p then Int.ofNat (log2 p - log2 d)
     else Int.ofNat (log2 p - log2 d) - 1)
  else
    (if d ≤ p * 2 ^ (log2 d - log2 p) then -Int.ofNat (log2 d - log2 p)
     else -Int.ofNat (log2 d - log2 p) - 1)

/-- The exponent of the last place of the float64 nearest to `p / d`: 52
binary places below the leading bit (a significand of 53 bits), and never
below `-1074`, the last place of the subnormal numbers. -/
def ulpExp (p d : Nat) : Int :=
  if -1074 ≤ floorLog2 p d - 52 then floorLog2 p d - 52 else -1074

/-- The float64 that decoding the JSON number `q` yields: `q` rounded to the
nearest number with a significand of 53 bits, a tie going to the even
significand. Numbers beyond the largest float64 keep their rounded value
here; they are far outside the range of `int`. -/
def toFloat64 (q : Rat) : Float64 :=
  if q.num = 0 then ⟨false, 0, 0⟩
  else if 0 ≤ ulpExp q.num.natAbs q.den then
    ⟨decide (q.num < 0),
      roundHalfEven q.num.natAbs (q.den * 2 ^ (ulpExp q.num.natAbs q.den).toNat),
      ulpExp q.num.natAbs q.den⟩
  else
    ⟨decide (q.num < 0),
      roundHalfEven (q.num.natAbs * 2 ^ (-ulpExp q.num.natAbs q.den).toNat) q.den,
      ulpExp q.num.natAbs q.den⟩

/-- The integer part of the absolute value of a float64. -/
def Float64.magnitude (f : Float64) : Nat :=
  if 0 ≤ f.exp then f.mant * 2 ^ f.exp.toNat else f.mant / 2 ^ (-f.exp).toNat

/-- A float64 with its fraction dropped (truncation towards zero). -/
def Float64.trunc (f : Float64) : Int :=
  if f.neg then -Int.ofNat f.magnitude else Int.ofNat f.magnitude

/-- The conversion `int(f)` of the float64 decoded from the JSON number `q`:
the fraction is dropped (truncation towards zero); the result is
implementation specific when it does not fit. -/
def floatToInt (lib : Lib) (q : Rat) : Int :=
  if minInt ≤ (toFloat64 q).trunc ∧ (toFloat64 q).trunc ≤ maxInt then (toFloat64 q).trunc
  else lib.intOverflow

/-- The method `gson.JSON.Int`, `int(j.Num())`: a number converted to `int`,
anything else 0. -/
def JSON.Int (lib : Lib) : JSON → Int
  | .number q => floatToInt lib q
  | _ => 0

/-- A `*proto.RuntimeRemoteObject`: the JavaScript type reported by the
browser and the value. -/
structure RemoteObject where
  type : String
  value : JSON
  objectID : String := ""

/-- The constant `proto.RuntimeRemoteObjectTypeString`. -/
def RuntimeRemoteObjectTypeString : String := "string"

/-- The result `(res, err)` of `page.Eval`: an error, or a possibly nil
object. -/
abbrev EvalResult := Except Error (Option RemoteObject)

/-! ## The test poller (`internal/app/tests.go`) -/

/-- The function `testsDone` on the result of its `page.Eval`: the pair
returned and the log lines written. -/
def testsDone (eval : EvalResult) : (Bool × Option Error) × List LogEntry :=
  match eval with
  | .error err => ((false, some err), [])
  | .ok none => ((false, none), [⟨.trace, "testsDone evaluation returned nil result", []⟩])
  | .ok (some res) =>
    ((res.value.Bool, none),
      [⟨.trace, "testsDone evaluation result", [("done", toString res.value.Bool)]⟩])

/-- The function `fetchFailures` on the result of its `page.Eval`: the pair
returned and the log lines written. -/
def fetchFailures (lib : Lib) (eval : EvalResult) : (Int × Option Error) × List LogEntry :=
  match eval with
  | .error err => ((0, some err), [])
  | .ok none => ((0, none), [⟨.trace, "fetchFailures evaluation returned nil result", []⟩])
  | .ok (some res) =>
    let numeric : (Int × Option Error) × List LogEntry :=
      ((res.value.Int lib, none),
        [⟨.trace, "fetchFailures returning numeric value",
          [("failures", Itoa (res.value.Int lib))]⟩])
    if res.type = RuntimeRemoteObjectTypeString then
      if TrimSpace (res.value.Str lib) = "" then
        ((0, none), [⟨.trace, "fetchFailures received empty string result", []⟩])
      else
        match Atoi (TrimSpace (res.value.Str lib)) with
        | some n =>
          ((n, none),
            [⟨.trace, "fetchFailures parsed integer string", [("failures", Itoa n)]⟩])
        | none => numeric
    else numeric

/-- What the page answers at one tick of the poll: the result of the "done"
script and the result of the failure-count script. -/
structure Poll where
  done : EvalResult
  failures : EvalResult

/-- What the `select` of `waitForTests` receives: the cancellation of the
context, or a tick of the ticker with the answers of the page at that time. -/
inductive PollEvent where
  | ctxDone
  | tick (p : Poll)

/-- The `for { select { ... } }` of `waitForTests` along the events it
receives: the pair returned and the log; `none` while no event has made it
return. -/
def pollLoop (lib : Lib) : List PollEvent → Option (Int × Option Error) × List LogEntry
  | [] => (none, [])
  | .ctxDone :: _ =>
    (some (0, some .canceled),
      [⟨.trace, "waitForTests exiting due to context cancellation", []⟩])
  | .tick p :: rest =>
    match testsDone p.done with
    | ((_, some err), logs) =>
      let r := pollLoop lib rest
      (r.1, ⟨.trace, "polling TinyTest status", []⟩ :: logs
              ++ ⟨.debug, "checking test completion failed", [("error", err.message)]⟩ :: r.2)
    | ((true, none), logs) =>
      match fetchFailures lib p.failures with
      | ((_, some err), flogs) =>
        (some (1, some err),
          ⟨.trace, "polling TinyTest status", []⟩ :: logs
            ++ ⟨.debug, "detected that tests completed; fetching failure count", []⟩ :: flogs)
      | ((failures, none), flogs) =>
        (some (failures, none),
          ⟨.trace, "polling TinyTest status", []⟩ :: logs
            ++ ⟨.debug, "detected that tests completed; fetching failure count", []⟩ :: flogs
            ++ [⟨.debug, "retrieved TinyTest failure count", [("failures", Itoa failures)]⟩])
    | ((false, none), logs) =>
      let r := pollLoop lib rest
      (r.1, ⟨.trace, "polling TinyTest status", []⟩ :: logs ++ r.2)

/-- The method `App.waitForTests`. -/
def waitForTests (lib : Lib) (events : List PollEvent) :
    Option (Int × Option Error) × List LogEntry :=
  ((pollLoop lib events).1,
    ⟨.trace, "entered waitForTests loop", []⟩ :: (pollLoop lib events).2)

/-- Whether the "done" evaluation of a tick is true: it returned without
error a non-nil object whose value is the boolean `true`. In every other case
(an error, a nil object, a value that is false or not a boolean) the tick is
skipped. -/
def Poll.isDone (p : Poll) : Bool :=
  match p.done with
  | .ok (some res) => res.value.Bool
  | _ => false

/-- A serializer that agrees with `json.Marshal` on nil, booleans and the
integers below 2^53 in absolute value (which are float64 values, written in
plain decimal), and fails on everything else. -/
def decimalMarshal : JSON → Except Error String
  | .null => .ok "null"
  | .bool true => .ok "true"
  | .bool false => .ok "false"
  | .number q =>
    if q.den = 1 ∧ q.num.natAbs < 9007199254740992 then .ok (toString q.num)
    else .error (.other "unsupported value")
  | _ => .error (.other "unsupported value")

/-- A library environment for examples. -/
def exampleLib : Lib :=
  { sprint := fun _ => "<value>", marshal := decimalMarshal, toLower := id, intOverflow := minInt }

/-- A page on which the tests are still running. -/
def pollRunning : Poll :=
  { done := .ok (some ⟨"boolean", .bool false, ""⟩), failures := .ok (some ⟨"number", .number 0, ""⟩) }

/-- A page on which the "done" script cannot be evaluated. -/
def pollBroken : Poll :=
  { done := .error (.other "execution context destroyed"), failures := .ok none }

/-- A page that gives no result to the "done" script. -/
def pollSilent : Poll :=
  { done := .ok none, failures := .ok none }

/-- A page on which the tests are done with 3 failures. -/
def pollDone3 : Poll :=
  { done := .ok (some ⟨"boolean", .bool true, ""⟩), failures := .ok (some ⟨"number", .number 3, ""⟩) }

/-- A page on which the tests are done and the failure count cannot be
evaluated. -/
def pollDoneBroken : Poll :=
  { done := .ok (some ⟨"boolean", .bool true, ""⟩), failures := .error (.other "target closed") }

/-! ## The console relay (`internal/app/console.go`, `browser.go`) -/

/-- The call `page.ObjectToJSON`, answered by the browser: an error or the
decoded value of a console argument. -/
abbrev Decoder := RemoteObject → Except Error JSON

/-- The loop `for _, arg := range args` of `consoleMessage`: the slice `parts`
and the log after it, from their values before it. -/
def consoleParts (lib : Lib) (decode : Decoder) :
    List RemoteObject → List String → List LogEntry → List String × List LogEntry
  | [], parts, logs => (parts, logs)
  | arg :: rest, parts, logs =>
    match decode arg with
    | .error err =>
      consoleParts lib decode rest parts
        (logs ++ [⟨.debug, "console value decode failed", [("error", err.message)]⟩])
    | .ok (.string v) => consoleParts lib decode rest (parts ++ [v]) logs
    | .ok v =>
      match lib.marshal v with
      | .error _ => consoleParts lib decode rest (parts ++ [lib.sprint v]) logs
      | .ok buf => consoleParts lib decode rest (parts ++ [buf]) logs

/-- The function `consoleMessage`: the message and the log lines written. -/
def consoleMessage (lib : Lib) (decode : Decoder) (args : List RemoteObject) :
    String × List LogEntry :=
  if args.length = 0 then ("", [])
  else
    let r := consoleParts lib decode args [] []
    let message := TrimSpace (Join r.1 " ")
    if message ≠ "" then
      (message, r.2 ++ [⟨.trace, "formatted console message", [("message", message)]⟩])
    else (message, r.2)

/-- What the browser goroutine does to the outside world, in order: a log
line, a line printed on standard output, a call to the browser, or a call of
`time.Sleep`. The effect `eachEvent` is the call `page.EachEvent(...)`, which
subscribes to the console events, and `stopConsole` the deferred call of the
function that it returned: rod documents that function as the one that waits
on the subscription and runs the handler on each event, so it is there that
the console events received so far reach the handler. -/
inductive BrowserEffect where
  | log (e : LogEntry)
  | println (line : String)
  | launch
  | connect (controlURL : String)
  | openPage
  | eachEvent
  | stopConsole
  | navigate (url : String)
  | waitLoad
  | sleep (milliseconds : Nat)
  deriving DecidableEq, Repr

/-- The handler that `startBrowser` installs with `page.EachEvent`, run on one
`RuntimeConsoleAPICalled` event with the given arguments. -/
def consoleHandler (lib : Lib) (decode : Decoder) (args : List RemoteObject) :
    List BrowserEffect :=
  let m := consoleMessage lib decode args
  if m.1 = "" ∨ m.1 = consoleSentinel then m.2.map BrowserEffect.log
  else
    m.2.map BrowserEffect.log
      ++ [.log ⟨.trace, "browser console message", [("message", m.1)]⟩, .println m.1]

/-- The lines printed on standard output in a trace. -/
def printed (trace : List BrowserEffect) : List String :=
  trace.filterMap (fun e => match e with | .println line => some line | _ => none)

/-- How `consoleMessage` renders one argument: nothing when it cannot be
decoded, a string as itself, any other value as its JSON serialization (as
`fmt.Sprint` prints it if it cannot be serialized). -/
def renderArg (lib : Lib) (decode : Decoder) (arg : RemoteObject) : Option String :=
  match decode arg with
  | .error _ => none
  | .ok (.string v) => some v
  | .ok v =>
    match lib.marshal v with
    | .ok buf => some buf
    | .error _ => some (lib.sprint v)

/-- The decoding of an argument that carries its value, which is what
`page.ObjectToJSON` returns for an object without an object id. -/
def decodeByValue : Decoder := fun arg => .ok arg.value

/-! ## The browser session (`internal/app/browser.go`) -/

/-- What the context and the page answer at each navigation attempt, counted
from 0: whether `ctx.Done()` is closed when the attempt checks it, the error of
`page.Navigate` and the error of `page.WaitLoad` (`none` is nil). -/
structure PageEnv where
  ctxDone : Nat → Bool
  navigate : Nat → Option Error
  waitLoad : Nat → Option Error

/-- The loop `for attempt := 0; attempt < 10; attempt++` of `waitForPage` with
`remaining` iterations to go, entered at `attempt` with the given `lastErr`,
followed by the statements after the loop: the error returned (`none` is nil)
and the effects. -/
def waitForPageLoop (env : PageEnv) (url : String) :
    Nat → Nat → Option Error → Option Error × List BrowserEffect
  | 0, _, lastErr =>
    (some (.wrap ("unable to load " ++ url ++ ": ")
      (match lastErr with
       | some err => err
       | none => .other "unknown navigation error")), [])
  | remaining + 1, attempt, _ =>
    if env.ctxDone attempt then
      (some .canceled,
        [.log ⟨.trace, "waitForPage aborted because context was cancelled", []⟩])
    else
      match env.navigate attempt with
      | some err =>
        let r := waitForPageLoop env url remaining (attempt + 1) (some err)
        (r.1, .log ⟨.trace, "navigating to test runner page",
                [("attempt", toString (attempt + 1))]⟩
              :: .navigate url :: r.2)
      | none =>
        match env.waitLoad attempt with
        | some err =>
          let r := waitForPageLoop env url remaining (attempt + 1) (some err)
          (r.1, .log ⟨.trace, "navigating to test runner page",
                  [("attempt", toString (attempt + 1))]⟩
                :: .navigate url :: .waitLoad :: r.2)
        | none =>
          (none,
            [.log ⟨.trace, "navigating to test runner page",
               [("attempt", toString (attempt + 1))]⟩,
             .navigate url, .waitLoad,
             .log ⟨.debug, "test runner page load complete", []⟩])

/-- The method `App.waitForPage`. -/
def waitForPage (env : PageEnv) (url : String) : Option Error × List BrowserEffect :=
  waitForPageLoop env url 10 0 none

/-- The error with which navigation attempt `i` fails: that of `Navigate`, or
else that of the `WaitLoad` that follows it; `none` when the attempt loads the
page. -/
def attemptError (env : PageEnv) (i : Nat) : Option Error :=
  match env.navigate i with
  | some err => some err
  | none => env.waitLoad i

/-- The number of calls of `page.Navigate` in a trace. -/
def navigations (trace : List BrowserEffect) : Nat :=
  trace.countP (fun e => match e with | .navigate _ => true | _ => false)

/-- What `startBrowser` is answered by the launcher, the browser, the page and
the context. -/
structure BrowserEnv where
  lib : Lib
  launch : Except Error String
  connect : Option Error
  openPage : Except Error Page
  page : PageEnv
  polls : List PollEvent

/-- The statements of `startBrowser` from `waitForTests` on, the page being
loaded. While `waitForTests` has not returned nothing more happens. -/
def monitorTests (env : BrowserEnv) (a : App) : App × List BrowserEffect :=
  let w := waitForTests env.lib env.polls
  match w.1 with
  | none => (a, w.2.map BrowserEffect.log)
  | some (_, some err) =>
    (a, w.2.map BrowserEffect.log
      ++ (if err.isCanceled then []
          else [.log ⟨.error, "failed while waiting for tests", [("error", err.message)]⟩])
      ++ [.stopConsole])
  | some (code, none) =>
    let r := publishResult a code
    (r.1, w.2.map BrowserEffect.log ++ r.2.map BrowserEffect.log ++ [.stopConsole])

/-- The statements of `startBrowser` from the navigation on, browser and page
being stored on the application and the console handler installed. -/
def loadAndMonitor (env : BrowserEnv) (a : App) : App × List BrowserEffect :=
  let url := "http://localhost:" ++ Itoa a.port
  let nav := waitForPage env.page url
  match nav.1 with
  | some err =>
    (a, .log ⟨.debug, "navigating to test runner URL", [("url", url)]⟩ :: nav.2
      ++ (if err.isCanceled then []
          else [.log ⟨.error, "failed to load test runner page", [("error", err.message)]⟩])
      ++ [.stopConsole])
  | none =>
    let r := monitorTests env a
    (r.1, .log ⟨.debug, "navigating to test runner URL", [("url", url)]⟩ :: nav.2
      ++ [.log ⟨.debug, "test runner page ready", []⟩, .println "Running tests...",
          .log ⟨.trace, "signalled test start to console", []⟩]
      ++ r.2)

/-- The method `App.startBrowser`, run to its last statement or to the point
where it waits for ever: the application afterwards and the effects. The last
effect on the paths past `page.EachEvent` is the deferred call `stopConsole()`,
in which the console events are handled by `consoleHandler`; what that call
prints and whether it comes back are not part of this definition. -/
def startBrowser (env : BrowserEnv) (a : App) : App × List BrowserEffect :=
  let l0 : BrowserEffect := .log ⟨.debug, "starting headless browser for test monitoring", []⟩
  match env.launch with
  | .error err =>
    (a, [l0, .launch, .log ⟨.error, "failed to launch browser", [("error", err.message)]⟩])
  | .ok controlURL =>
    let l1 : BrowserEffect :=
      .log ⟨.debug, "browser launcher initialised", [("control_url", controlURL)]⟩
    match env.connect with
    | some err =>
      (a, [l0, .launch, l1, .connect controlURL,
           .log ⟨.error, "failed to connect to browser", [("error", err.message)]⟩])
    | none =>
      match env.openPage with
      | .error err =>
        (a, [l0, .launch, l1, .connect controlURL,
             .log ⟨.debug, "connected to headless browser", []⟩, .openPage,
             .log ⟨.error, "failed to open page", [("error", err.message)]⟩])
      | .ok page =>
        let r := loadAndMonitor env
          { a with browser := some ⟨controlURL⟩, page := some page }
        (r.1, [l0, .launch, l1, .connect controlURL,
               .log ⟨.debug, "connected to headless browser", []⟩, .openPage,
               .log ⟨.debug, "created browser page for TinyTest runner", []⟩,
               .log ⟨.trace, "browser state stored on App", []⟩, .eachEvent] ++ r.2)

/-- Whether an action is a pass of the main loop through its `select`, as
opposed to an event from one of its three sources. -/
def Action.isPick : Action → Bool
  | .pick _ => true
  | _ => false

/-- A test server that refuses every connection, under a context that is
never cancelled. -/
def pageRefused : PageEnv :=
  { ctxDone := fun _ => false,
    navigate := fun i => if i < 9 then some (.other "net::ERR_CONNECTION_REFUSED") else none,
    waitLoad := fun _ => some (.other "navigation timeout") }

/-- A test server that loads at once, under a context that is never
cancelled. -/
def pageReady : PageEnv :=
  { ctxDone := fun _ => false, navigate := fun _ => none, waitLoad := fun _ => none }

/-- A browser that starts and whose page cannot reach the test server. -/
def browserNoServer : BrowserEnv :=
  { lib := exampleLib, launch := .ok "ws://127.0.0.1:9222", connect := none,
    openPage := .ok ⟨0⟩, page := pageRefused, polls := [] }

/-- A browser whose page loads and on which the failure count cannot be
evaluated once the tests are done. -/
def browserEvalFails : BrowserEnv :=
  { lib := exampleLib, launch := .ok "ws://127.0.0.1:9222", connect := none,
    openPage := .ok ⟨0⟩, page := pageReady,
    polls := [.tick pollRunning, .tick pollDoneBroken] }

/-! ## The output streamer (`internal/app/meteor.go`) -/

/-- The two writers handed to `streamOutput`: `os.Stdout` for the standard
output pipe of the subprocess, `os.Stderr` for its standard error pipe. -/
inductive Sink where
  | stdout
  | stderr
  deriving DecidableEq, Repr

/-- A non-nil error of `reader.ReadString`. -/
inductive ReadError where
  | eof
  | other (msg : String)
  deriving DecidableEq, Repr

/-- What one iteration of the loop of `streamOutput` meets: the context
already cancelled, or the result `(line, err)` of `reader.ReadString` together
with the error of the `w.Write` that relays the line (`none` is nil). -/
inductive StreamRead where
  | ctxDone
  | read (line : String) (err : Option ReadError) (writeErr : Option String)
  deriving DecidableEq, Repr

/-- What an output streamer does, in order: a log line, a write of a line to
its writer, or the launch `go a.startBrowser(ctx)`. -/
inductive StreamEffect where
  | log (e : LogEntry)
  | write (w : Sink) (line : String)
  | spawnBrowser
  deriving DecidableEq, Repr

/-- The block `if len(line) > 0 { ... }` of `streamOutput`. The launch is
wrapped in `startChromeOnce.Do`, which runs it on the first call only. -/
def relayLine (a : App) (w : Sink) (detectReady : Bool) (line : String)
    (writeErr : Option String) : App × List StreamEffect :=
  if line = "" then (a, [])
  else
    let relayed : List StreamEffect :=
      [.log ⟨.trace, "meteor output line", [("line", TrimSpace line)]⟩, .write w line]
        ++ (match writeErr with
            | some e => [.log ⟨.debug, "failed to write meteor output", [("error", e)]⟩]
            | none => [])
    if detectReady && containsReadyMarker a line then
      let found : List StreamEffect :=
        relayed ++ (markerLogs line readyMarkers).map StreamEffect.log
          ++ [.log ⟨.debug, "ready marker identified in meteor output; starting browser", []⟩]
      if a.startChromeOnce then (a, found)
      else ({ a with startChromeOnce := true }, found ++ [.spawnBrowser])
    else (a, relayed)

/-- One iteration of the loop of `streamOutput`: the application and the
effects, and whether the loop goes round again. -/
def streamIteration (a : App) (w : Sink) (detectReady : Bool) :
    StreamRead → (App × List StreamEffect) × Bool
  | .ctxDone => ((a, []), false)
  | .read line err writeErr =>
    let r := relayLine a w detectReady line writeErr
    match err with
    | none => (r, true)
    | some .eof => ((r.1, r.2 ++ [.log ⟨.trace, "meteor output reached EOF", []⟩]), false)
    | some (.other msg) =>
      ((r.1, r.2 ++ [.log ⟨.debug, "meteor output read error", [("error", msg)]⟩]), false)

/-- The method `App.streamOutput` along the reads it makes, up to its return
or to the end of the list. -/
def streamOutput (a : App) (w : Sink) (detectReady : Bool) :
    List StreamRead → App × List StreamEffect
  | [] => (a, [])
  | r :: rest =>
    match streamIteration a w detectReady r with
    | ((a2, effects), true) =>
      let s := streamOutput a2 w detectReady rest
      (s.1, effects ++ s.2)
    | ((a2, effects), false) => (a2, effects)

/-- The two streamers started by `startMeteor`, running side by side: the
application they share, whether each is still in its loop, and the effects of
both in the order performed. -/
structure Streams where
  app : App
  outLive : Bool
  errLive : Bool
  trace : List StreamEffect
  deriving DecidableEq, Repr

/-- One iteration of one of the two streamers, named by its writer. The
standard output streamer runs with `detectReady = true`, the standard error
streamer with `detectReady = false`; a streamer that has returned does
nothing. -/
def Streams.step (s : Streams) (ev : Sink × StreamRead) : Streams :=
  match ev.1 with
  | .stdout =>
    if s.outLive then
      let r := streamIteration s.app .stdout true ev.2
      { s with app := r.1.1, outLive := r.2, trace := s.trace ++ r.1.2 }
    else s
  | .stderr =>
    if s.errLive then
      let r := streamIteration s.app .stderr false ev.2
      { s with app := r.1.1, errLive := r.2, trace := s.trace ++ r.1.2 }
    else s

/-- The two streamers of one run along an interleaving of their iterations. -/
def runStreams (a : App) (events : List (Sink × StreamRead)) : Streams :=
  events.foldl Streams.step ⟨a, true, true, []⟩

/-- The number of browser launches in a trace. -/
def launches (trace : List StreamEffect) : Nat :=
  trace.countP (fun e => match e with | .spawnBrowser => true | _ => false)

/-- The non-empty lines a streamer reads before it returns: those of its
reads up to the first cancellation or the first read that carries an error,
that read included. -/
def linesRead : List StreamRead → List String
  | [] => []
  | .ctxDone :: _ => []
  | .read line err _ :: rest =>
    (if line = "" then [] else [line]) ++ (if err.isSome then [] else linesRead rest)

/-- The iterations of one of the two streamers in an interleaving. -/
def readsOf (w : Sink) (events : List (Sink × StreamRead)) : List StreamRead :=
  events.filterMap (fun ev => if ev.1 = w then some ev.2 else none)

/-- The output of a subprocess that reports readiness twice on its standard
output and once on its standard error. -/
def readyOutput : List (Sink × StreamRead) :=
  [(.stdout, .read "=> Started proxy.\n" none none),
   (.stderr, .read "listening on 10015\n" none none),
   (.stdout, .read "test-in-console listening\n" none none),
   (.stdout, .read "10015\n" none none),
   (.stdout, .read "" (some .eof) none),
   (.stderr, .read "" (some .eof) none)]

/-- The output of a subprocess that reports readiness on its standard error
only. -/
def stderrOnlyOutput : List (Sink × StreamRead) :=
  [(.stderr, .read "test-in-console listening\n" none none),
   (.stderr, .read "10015" (some .eof) none)]

/-! ## Process termination (`internal/process/process_unix.go`) -/

/-- An error number of a system call: `syscall.ESRCH` (no such process) or
another one. -/
inductive Errno where
  | esrch
  | other (code : Nat)
  deriving DecidableEq, Repr

/-- A non-nil error of a call on a process: `os.ErrProcessDone`, or an error
number. -/
inductive ProcessError where
  | done
  | errno (e : Errno)
  deriving DecidableEq, Repr

/-- The test `errors.Is(err, syscall.ESRCH)`. -/
def ProcessError.isESRCH : ProcessError → Bool
  | .errno .esrch => true
  | _ => false

/-- The test `errors.Is(err, os.ErrProcessDone)`. -/
def ProcessError.isProcessDone : ProcessError → Bool
  | .done => true
  | _ => false

/-- The two signals sent by `Terminate`. -/
inductive Signal where
  | sigterm
  | sigkill
  deriving DecidableEq, Repr

/-- What the operating system answers to `Terminate`: `syscall.Getpgid`,
`syscall.Kill`, `cmd.Process.Signal` and `cmd.Process.Kill` (`none` is a nil
error). -/
structure ProcEnv where
  getpgid : Int → Except Errno Int
  kill : Int → Signal → Option Errno
  signal : Int → Signal → Option ProcessError
  processKill : Int → Option ProcessError

/-- What `Terminate` does to the outside world, in order. -/
inductive ProcEffect where
  | log (e : LogEntry)
  | getpgid (pid : Int)
  | kill (target : Int) (sig : Signal)
  | sleep (milliseconds : Nat)
  | signal (pid : Int) (sig : Signal)
  | processKill (pid : Int)
  deriving DecidableEq, Repr

/-- The branch of `Terminate` that signals the process group `pgid`. -/
def terminateGroup (env : ProcEnv) (pgid : Int) : Option ProcessError × List ProcEffect :=
  let t1 : List ProcEffect :=
    [.log ⟨.trace, "sending SIGTERM to process group", [("pgid", Itoa pgid)]⟩,
     .kill (-pgid) .sigterm]
  match env.kill (-pgid) .sigterm with
  | some (.other code) => (some (.errno (.other code)), t1)
  | _ =>
    let t2 : List ProcEffect :=
      t1 ++ [.sleep 300,
             .log ⟨.trace, "sending SIGKILL to process group", [("pgid", Itoa pgid)]⟩,
             .kill (-pgid) .sigkill]
    match env.kill (-pgid) .sigkill with
    | some (.other code) => (some (.errno (.other code)), t2)
    | _ => (none, t2)

/-- The branch of `Terminate` that signals the single process `pid`. -/
def terminateProcess (env : ProcEnv) (pid : Int) : Option ProcessError × List ProcEffect :=
  let t1 : List ProcEffect :=
    [.log ⟨.trace, "sending SIGTERM to individual process", []⟩, .signal pid .sigterm]
  match env.signal pid .sigterm with
  | none => (none, t1)
  | some err =>
    if !err.isProcessDone && !err.isESRCH then
      let t2 : List ProcEffect :=
        t1 ++ [.log ⟨.trace, "SIGTERM failed, escalating to SIGKILL", []⟩, .processKill pid]
      match env.processKill pid with
      | none => (none, t2)
      | some err2 =>
        if !err2.isProcessDone && !err2.isESRCH then (some err2, t2) else (none, t2)
    else (none, t1)

/-- The function `Terminate` of the Unix build: the error returned (`none` is
nil) and the effects. The argument `none` is a nil command. -/
def Terminate (env : ProcEnv) (cmd : Option Cmd) : Option ProcessError × List ProcEffect :=
  match cmd with
  | none => (none, [])
  | some c =>
    match c.process with
    | none => (none, [])
    | some pid =>
      let t0 : List ProcEffect :=
        [.log ⟨.debug, "terminating process tree on Unix", [("pid", Itoa pid)]⟩, .getpgid pid]
      match env.getpgid pid with
      | .ok pgid =>
        if pgid > 0 then
          let r := terminateGroup env pgid
          (r.1, t0 ++ r.2)
        else
          let r := terminateProcess env pid
          (r.1, t0 ++ r.2)
      | .error _ =>
        let r := terminateProcess env pid
        (r.1, t0 ++ r.2)

/-- Whether an effect sends a signal to a process or a process group. -/
def ProcEffect.isSignal : ProcEffect → Bool
  | .kill _ _ => true
  | .signal _ _ => true
  | .processKill _ => true
  | _ => false

/-- An operating system on which the process and its group are gone: the
group lookup and every signal report "no such process". -/
def processGone : ProcEnv :=
  { getpgid := fun _ => .error .esrch, kill := fun _ _ => some .esrch,
    signal := fun _ _ => some .done, processKill := fun _ => some (.errno .esrch) }

/-! ## The legacy copy of the browser session (`src/main.go`) -/

/-- The loop of the legacy `waitForPage` of `src/main.go` with `remaining`
iterations to go, entered at `attempt`, followed by the statements after the
loop. It differs from the one of `internal/app/browser.go` by the statement
`time.Sleep(time.Second)` that ends every failed iteration (and by writing no
log). -/
def Legacy.waitForPageLoop (env : PageEnv) (url : String) :
    Nat → Nat → Option Error → Option Error × List BrowserEffect
  | 0, _, lastErr =>
    (some (.wrap ("unable to load " ++ url ++ ": ")
      (match lastErr with
       | some err => err
       | none => .other "unknown navigation error")), [])
  | remaining + 1, attempt, _ =>
    if env.ctxDone attempt then (some .canceled, [])
    else
      match env.navigate attempt with
      | some err =>
        let r := Legacy.waitForPageLoop env url remaining (attempt + 1) (some err)
        (r.1, .navigate url :: .sleep 1000 :: r.2)
      | none =>
        match env.waitLoad attempt with
        | some err =>
          let r := Legacy.waitForPageLoop env url remaining (attempt + 1) (some err)
          (r.1, .navigate url :: .waitLoad :: .sleep 1000 :: r.2)
        | none => (none, [.navigate url, .waitLoad])

/-- The legacy method `App.waitForPage` of `src/main.go`. -/
def Legacy.waitForPage (env : PageEnv) (url : String) : Option Error × List BrowserEffect :=
  Legacy.waitForPageLoop env url 10 0 none

/-- The delays between consecutive navigation attempts of a trace, read from
the left: `cur` holds the delays met since the last `Navigate` (`none` before
the first one); each further `Navigate` closes a gap. What follows the last
`Navigate` is not between two attempts and is not counted. -/
def gapsFrom : Option (List Nat) → List BrowserEffect → List (List Nat)
  | _, [] => []
  | cur, .navigate _ :: rest =>
    (match cur with
     | some delays => [delays]
     | none => []) ++ gapsFrom (some []) rest
  | cur, .sleep ms :: rest => gapsFrom (cur.map (fun delays => delays ++ [ms])) rest
  | cur, _ :: rest => gapsFrom cur rest

/-- For each pair of consecutive navigation attempts of a trace, in order, the
durations in milliseconds of the delays between them. -/
def gaps (trace : List BrowserEffect) : List (List Nat) := gapsFrom none trace

/-- Whether an effect is a call of `time.Sleep`. -/
def BrowserEffect.isSleep : BrowserEffect → Bool
  | .sleep _ => true
  | _ => false

/-- A browser that starts and accepts the connection, and whose page cannot be
opened. -/
def browserPageFails : BrowserEnv :=
  { lib := exampleLib, launch := .ok "ws://127.0.0.1:9222", connect := none,
    openPage := .error (.other "target crashed"), page := pageReady, polls := [] }

/-! ## The subprocess at the end of a run (`cmd/mtest/main.go`, `os/exec`) -/

/-- What `os/exec` does to a command made with `exec.CommandContext(ctx, ...)`
when `ctx` becomes done: if the command has not completed on its own, the
goroutine started by `cmd.Start` calls `cmd.Process.Kill`, which sends SIGKILL
to the process. `startMeteor` makes its command this way with the context
`meteorCtx` of `Run`, and `Run` cancels that context when it returns
(`defer meteorCancel()`). -/
def contextKill (completed : Bool) (cmd : Option Cmd) : List ProcEffect :=
  match cmd with
  | none => []
  | some c =>
    match c.process with
    | none => []
    | some pid => if completed then [] else [.processKill pid]

/-- The calls made on the subprocess by the effects of `Shutdown`: each call
of `process.Terminate` with what it does. -/
def processEffects (env : ProcEnv) : List Effect → List ProcEffect
  | [] => []
  | .terminate cmd :: rest => (Terminate env (some cmd)).2 ++ processEffects env rest
  | _ :: rest => processEffects env rest

/-- Whether the subprocess completes on its own in an interleaving: the wait
goroutine sees `cmd.Wait()` return. -/
def subprocessExited (sched : List Action) : Bool :=
  sched.any (fun act => match act with | .exited _ => true | _ => false)

/-- What reaches the subprocess once `Run` has returned on application `a`,
`main` calling `Shutdown` next: the calls of `Terminate`, and the kill by the
cancelled context of the command, which the goroutine of `os/exec` makes on
its own after `watcherAt` of the former. -/
def exitEffects (env : ProcEnv) (senv : ShutdownEnv) (completed : Bool) (watcherAt : Nat)
    (a : App) : List ProcEffect :=
  (processEffects env (Shutdown senv a).2).take watcherAt
    ++ contextKill completed a.meteorCmd
    ++ (processEffects env (Shutdown senv a).2).drop watcherAt

/-- The function `main` from `app.New` on, along an interleaving:
`exitCode := application.Run(ctx)`, `application.Shutdown()`,
`os.Exit(exitCode)`. The exit code handed to `os.Exit` (of which the
operating system reports the low 8 bits) and what reached the subprocess;
`none` while `Run` has not returned. -/
def Main (penv : PortEnv) (menv : MeteorEnv) (env : ProcEnv) (senv : ShutdownEnv)
    (watcherAt : Nat) (cfg : Config) (sched : List Action) : Option (Int × List ProcEffect) :=
  match Run penv menv (New cfg) sched with
  | .waiting _ _ _ => none
  | .returned code a _ =>
    some (code, exitEffects env senv (subprocessExited sched) watcherAt a)

/-- The signals of a trace, in the order sent. -/
def signalsSent (trace : List ProcEffect) : List ProcEffect :=
  trace.filter ProcEffect.isSignal

/-- An operating system on which the subprocess and its group are alive and
accept every signal; the group id is the process id, as `Setpgid` makes it. -/
def processAlive : ProcEnv :=
  { getpgid := fun pid => .ok pid, kill := fun _ _ => none,
    signal := fun _ _ => none, processKill := fun _ => none }

/-- A platform on which the subprocess starts with process id 4242. -/
def meteorStarts : MeteorEnv := { pid := 4242 }

/-- A once-mode configuration with a fixed port. -/
def onceConfig : Config := { PackageName := "my:package", Once := true, Port := 10555 }

/-- The application of a once-mode run on port 10555 once `startMeteor` has
started the subprocess. -/
def startedApp : App :=
  (startMeteor meteorStarts
    { cfg := onceConfig, port := 10555, testsResult := Chan.make 1,
      meteorExit := Chan.make 1 }).1

/-! ## Properties of the event loop -/

/-- Once `Run` has returned, further actions do not change its result. -/
theorem runLoop_returned (code : Int) (a : App) (logs : List LogEntry) (sched : List Action) :
    runLoop (.returned code a logs) sched = .returned code a logs := by
  induction sched with
  | nil => rfl
  | cons act rest ih => simpa [runLoop, Loop.step] using ih

/-- The loop along a schedule is the loop along its tail after one step. -/
theorem runLoop_cons (s : Loop) (act : Action) (rest : List Action) :
    runLoop s (act :: rest) = runLoop (s.step act) rest := rfl

/-- The loop along two schedules in a row. -/
theorem runLoop_append (s : Loop) (s1 s2 : List Action) :
    runLoop s (s1 ++ s2) = runLoop (runLoop s s1) s2 := by
  simp [runLoop, List.foldl_append]

/-- C1: in once mode (`cfg.Once = true`), when the `select` of `Run` receives
`code` from the test-result channel, that pass returns exactly `code`, and so
does `Run` whatever the interleaving does afterwards: the value is neither
clamped nor remapped. -/
theorem Run_once_returns_received_code (a : App) (ctxDone : Bool) (code : Int) (ch : Chan Int)
    (hOnce : a.cfg.Once = true) (hRecv : a.testsResult.tryRecv = some (code, ch)) :
    (selectPass a ctxDone .testsResult).map Pass.exit = some (some code) ∧
    ∀ (logs : List LogEntry) (rest : List Action),
      (runLoop (.waiting a ctxDone logs) (.pick .testsResult :: rest)).exitCode = some code := by
  have hp : selectPass a ctxDone .testsResult
      = some (testsResultCase { a with testsResult := ch } code) := by
    simp [selectPass, hRecv]
  have hc : testsResultCase { a with testsResult := ch } code
      = ⟨[⟨.trace, "testsResult received from browser monitoring", [("status", toString code)]⟩,
          ⟨.info, "tests finished", [("status", toString code)]⟩],
         { a with testsResult := ch }, some code⟩ := by
    simp [testsResultCase, hOnce]
  refine ⟨by rw [hp, hc]; rfl, ?_⟩
  intro logs rest
  rw [runLoop_cons]
  simp only [Loop.step, hp, hc, runLoop_returned, Loop.exitCode]

/-- C1, scenario B: a fresh once-mode application whose browser goroutine has
published 3 failures returns 3 from the pass that receives them. -/
theorem Run_once_returns_received_code_witness :
    ((New { Once := true }).cfg.Once = true ∧
      (publishResult (New { Once := true }) 3).1.testsResult.tryRecv = some (3, Chan.make 1)) ∧
    ((selectPass (publishResult (New { Once := true }) 3).1 false .testsResult).map Pass.exit
        = some (some 3) ∧
      ∀ (logs : List LogEntry) (rest : List Action),
        (runLoop (.waiting (publishResult (New { Once := true }) 3).1 false logs)
          (.pick .testsResult :: rest)).exitCode = some 3) :=
  ⟨⟨by decide, by decide⟩,
   Run_once_returns_received_code (publishResult (New { Once := true }) 3).1 false 3 (Chan.make 1)
     (by decide) (by decide)⟩

/-- C2: when the `select` of `Run` receives the subprocess-exit notification,
the pass returns 1 for a non-nil wait error (an exit-status error of any code,
or any other error) and 0 for nil, in every application state, once or watch,
and so does `Run` whatever follows. -/
theorem Run_meteor_exit_code (a : App) (ctxDone : Bool) (err : Option WaitError)
    (ch : Chan (Option WaitError)) (hRecv : a.meteorExit.tryRecv = some (err, ch)) :
    (selectPass a ctxDone .meteorExit).map Pass.exit
        = some (some (if err.isSome then 1 else 0)) ∧
    ∀ (logs : List LogEntry) (rest : List Action),
      (runLoop (.waiting a ctxDone logs) (.pick .meteorExit :: rest)).exitCode
        = some (if err.isSome then 1 else 0) := by
  have hp : selectPass a ctxDone .meteorExit
      = some (meteorExitCase { a with meteorExit := ch } err) := by
    simp [selectPass, hRecv]
  have hx : (meteorExitCase { a with meteorExit := ch } err).exit
      = some (if err.isSome then 1 else 0) := by
    cases err with
    | none => simp [meteorExitCase]
    | some e =>
      cases e with
      | exitError c => by_cases h : c = 0 <;> simp [meteorExitCase, h]
      | other m => simp [meteorExitCase]
  refine ⟨by rw [hp]; simp [hx], ?_⟩
  intro logs rest
  rw [runLoop_cons]
  simp only [Loop.step, hp, hx, runLoop_returned, Loop.exitCode]

/-- C2, scenario D: the subprocess exits with status 2 before any test result
has been published; `Run` returns 1. -/
theorem Run_meteor_exit_code_witness :
    (notifyExit (New {}) (some (.exitError 2))).meteorExit.tryRecv
        = some (some (.exitError 2), Chan.make 1) ∧
    ((selectPass (notifyExit (New {}) (some (.exitError 2))) false .meteorExit).map Pass.exit
        = some (some 1) ∧
      ∀ (logs : List LogEntry) (rest : List Action),
        (runLoop (.waiting (notifyExit (New {}) (some (.exitError 2))) false logs)
          (.pick .meteorExit :: rest)).exitCode = some 1) :=
  ⟨by decide,
   Run_meteor_exit_code (notifyExit (New {}) (some (.exitError 2))) false
     (some (.exitError 2)) (Chan.make 1) (by decide)⟩

/-- C3: when the `select` of `Run` takes the cancellation case, the pass
returns 0 in every application state (any configuration, anything pending on
the two channels), and so does `Run` whatever follows. -/
theorem Run_cancel_returns_zero (a : App) :
    (selectPass a true .ctxDone).map Pass.exit = some (some 0) ∧
    ∀ (logs : List LogEntry) (rest : List Action),
      (runLoop (.waiting a true logs) (.pick .ctxDone :: rest)).exitCode = some 0 := by
  refine ⟨by simp [selectPass], ?_⟩
  intro logs rest
  rw [runLoop_cons]
  simp only [Loop.step, selectPass, if_true, runLoop_returned, Loop.exitCode]

/-- In watch mode a publish leaves the loop waiting, same configuration. -/
theorem publishResult_cfg (a : App) (code : Int) : (publishResult a code).1.cfg = a.cfg := by
  unfold publishResult
  cases h : a.testsResult.trySend code <;> simp <;> split <;> rfl

/-- In watch mode, a step that only moves a test result leaves the loop
waiting, with the same configuration and the same context state. -/
theorem step_watch_waiting (a : App) (ctxDone : Bool) (logs : List LogEntry) (act : Action)
    (hOnce : a.cfg.Once = false) (hAct : act.movesResult = true) :
    ∃ a2 logs2, Loop.step (.waiting a ctxDone logs) act = .waiting a2 ctxDone logs2 ∧
      a2.cfg.Once = false := by
  cases act with
  | cancel => simp [Action.movesResult] at hAct
  | exited err => simp [Action.movesResult] at hAct
  | publish code =>
    exact ⟨_, _, rfl, by rw [publishResult_cfg]; exact hOnce⟩
  | pick c =>
    cases c with
    | ctxDone => simp [Action.movesResult] at hAct
    | meteorExit => simp [Action.movesResult] at hAct
    | testsResult =>
      cases h : a.testsResult.tryRecv with
      | none => exact ⟨a, logs, by simp [Loop.step, selectPass, h], hOnce⟩
      | some r =>
        obtain ⟨code, ch⟩ := r
        refine ⟨{ a with testsResult := ch },
          logs ++ (testsResultCase { a with testsResult := ch } code).logs, ?_, hOnce⟩
        simp [Loop.step, selectPass, h, testsResultCase, hOnce]

/-- In watch mode, a schedule that only moves test results leaves the loop
waiting. -/
theorem runLoop_watch_waiting (sched : List Action) :
    ∀ (a : App) (ctxDone : Bool) (logs : List LogEntry), a.cfg.Once = false →
      (∀ act ∈ sched, act.movesResult = true) →
      ∃ a2 logs2, runLoop (.waiting a ctxDone logs) sched = .waiting a2 ctxDone logs2 := by
  induction sched with
  | nil => intro a ctxDone logs _ _; exact ⟨a, logs, rfl⟩
  | cons act rest ih =>
    intro a ctxDone logs hOnce hAll
    obtain ⟨a2, logs2, hStep, hOnce2⟩ :=
      step_watch_waiting a ctxDone logs act hOnce (hAll act (List.mem_cons_self _ _))
    rw [runLoop_cons, hStep]
    exact ih a2 ctxDone logs2 hOnce2 (fun x hx => hAll x (List.mem_cons_of_mem _ hx))

/-- Every action of a delivery schedule only moves a test result. -/
theorem deliver_movesResult (codes : List Int) :
    ∀ act ∈ deliver codes, act.movesResult = true := by
  intro act h
  simp only [deliver, List.mem_flatMap] at h
  obtain ⟨c, _, hc⟩ := h
  simp at hc
  rcases hc with rfl | rfl <;> rfl

/-- In watch mode with an empty one-slot result channel, one delivery (publish
then receive) brings the application back to where it was and adds exactly one
`info` line, the one reporting the result. -/
theorem deliver_one (a : App) (ctxDone : Bool) (logs : List LogEntry) (c : Int)
    (hOnce : a.cfg.Once = false) (hEmpty : a.testsResult = Chan.make 1) :
    ∃ logs2, runLoop (.waiting a ctxDone logs) [.publish c, .pick .testsResult]
        = .waiting a ctxDone logs2 ∧ infoLogs logs2 = infoLogs logs ++ [testsFinishedLog c] := by
  obtain ⟨cfg, port, cmd, tr, me, sc, so, br, pg⟩ := a
  simp only at hOnce hEmpty
  subst hEmpty
  refine ⟨(logs ++ (publishResult ⟨cfg, port, cmd, Chan.make 1, me, sc, so, br, pg⟩ c).2)
      ++ (testsResultCase ⟨cfg, port, cmd, Chan.make 1, me, sc, so, br, pg⟩ c).logs, ?_, ?_⟩
  · by_cases hc : c = 0
    · simp [runLoop, Loop.step, publishResult, Chan.trySend, Chan.make, selectPass,
        Chan.tryRecv, testsResultCase, hOnce, hc]
    · simp [runLoop, Loop.step, publishResult, Chan.trySend, Chan.make, selectPass,
        Chan.tryRecv, testsResultCase, hOnce, hc]
  · by_cases hc : c = 0
    · simp [infoLogs, testsFinishedLog, List.filter_append, List.filter, publishResult,
        Chan.trySend, Chan.make, testsResultCase, hOnce, hc]
    · simp [infoLogs, testsFinishedLog, List.filter_append, List.filter, publishResult,
        Chan.trySend, Chan.make, testsResultCase, hOnce, hc]

/-- In watch mode with an empty one-slot result channel, delivering a list of
results leaves the application as it was and adds one `info` line per result,
in order. -/
theorem deliver_all (codes : List Int) :
    ∀ (a : App) (ctxDone : Bool) (logs : List LogEntry), a.cfg.Once = false →
      a.testsResult = Chan.make 1 →
      ∃ logs2, runLoop (.waiting a ctxDone logs) (deliver codes) = .waiting a ctxDone logs2 ∧
        infoLogs logs2 = infoLogs logs ++ codes.map testsFinishedLog := by
  induction codes with
  | nil => intro a ctxDone logs _ _; exact ⟨logs, rfl, by simp⟩
  | cons c rest ih =>
    intro a ctxDone logs hOnce hEmpty
    obtain ⟨l1, h1, hl1⟩ := deliver_one a ctxDone logs c hOnce hEmpty
    obtain ⟨l2, h2, hl2⟩ := ih a ctxDone l1 hOnce hEmpty
    refine ⟨l2, ?_, ?_⟩
    · have : deliver (c :: rest) = [.publish c, .pick .testsResult] ++ deliver rest := by
        simp [deliver]
      rw [this, runLoop_append, h1, h2]
    · rw [hl2, hl1]; simp

/-- C4: in watch mode (`cfg.Once = false`), for every finite list of test
results delivered to the loop of `Run` in turn, the loop has not returned after
any number of steps of the delivery, it has logged one "tests finished" line per
result in order, and when the delivery is followed by external cancellation
`Run` returns 0. -/
theorem Run_watch_keeps_waiting (a : App) (codes : List Int)
    (hOnce : a.cfg.Once = false) (hEmpty : a.testsResult = Chan.make 1) :
    (∀ n : Nat, (runLoop (enterLoop a) ((deliver codes).take n)).exitCode = none) ∧
    infoLogs (runLoop (enterLoop a) (deliver codes)).logs = codes.map testsFinishedLog ∧
    (runLoop (enterLoop a) (deliver codes ++ [.cancel, .pick .ctxDone])).exitCode = some 0 := by
  refine ⟨?_, ?_, ?_⟩
  · intro n
    obtain ⟨a2, logs2, h⟩ := runLoop_watch_waiting ((deliver codes).take n) a false [] hOnce
      (fun act hact => deliver_movesResult codes act (List.mem_of_mem_take hact))
    simp only [enterLoop, h, Loop.exitCode]
  · obtain ⟨logs2, h, hl⟩ := deliver_all codes a false [] hOnce hEmpty
    simp only [enterLoop, h, Loop.logs, hl]
    simp [infoLogs]
  · obtain ⟨logs2, h, _⟩ := deliver_all codes a false [] hOnce hEmpty
    rw [runLoop_append]
    simp only [enterLoop, h]
    simp [runLoop, Loop.step, selectPass, Loop.exitCode]

/-- C4, scenario C: a fresh watch-mode application receives 2 failures, then 0
failures, then the cancellation; it returns 0 after logging both cycles. -/
theorem Run_watch_keeps_waiting_witness :
    ((New {}).cfg.Once = false ∧ (New {}).testsResult = Chan.make 1) ∧
    ((∀ n : Nat, (runLoop (enterLoop (New {})) ((deliver [2, 0]).take n)).exitCode = none) ∧
      infoLogs (runLoop (enterLoop (New {})) (deliver [2, 0])).logs
        = [2, 0].map testsFinishedLog ∧
      (runLoop (enterLoop (New {})) (deliver [2, 0] ++ [.cancel, .pick .ctxDone])).exitCode
        = some 0) :=
  ⟨⟨rfl, rfl⟩, Run_watch_keeps_waiting (New {}) [2, 0] rfl rfl⟩

/-- C5: on the one-slot result channel made by `New`, two publishes `c1` then
`c2` by the non-blocking send of `startBrowser`, with no receive in between,
leave exactly `c1` in the buffer: the second send finds the channel full and
takes the `default` case (it logs the skip, the application is unchanged); the
next receive of the main loop yields `c1` and empties the channel, so `c2` is
never seen. -/
theorem publish_twice_keeps_first (cfg : Config) (c1 c2 : Int) :
    (publishResult (New cfg) c1).1.testsResult.trySend c2 = none ∧
    (publishResult (publishResult (New cfg) c1).1 c2).1 = (publishResult (New cfg) c1).1 ∧
    (⟨.trace, "testsResult channel already populated; skipping dispatch", []⟩ : LogEntry)
      ∈ (publishResult (publishResult (New cfg) c1).1 c2).2 ∧
    (publishResult (publishResult (New cfg) c1).1 c2).1.testsResult = ⟨1, [c1]⟩ ∧
    (publishResult (publishResult (New cfg) c1).1 c2).1.testsResult.tryRecv
      = some (c1, Chan.make 1) ∧
    ∀ ctxDone : Bool,
      (selectPass (publishResult (publishResult (New cfg) c1).1 c2).1 ctxDone .testsResult).map
        (fun p => (p.logs.contains (testsFinishedLog c1), p.app.testsResult.tryRecv))
        = some (true, none) := by
  have h1 : (publishResult (New cfg) c1).1 = { New cfg with testsResult := ⟨1, [c1]⟩ } := by
    unfold publishResult
    simp only [New, Chan.trySend, Chan.make]
    split <;> rfl
  have hs : (publishResult (New cfg) c1).1.testsResult.trySend c2 = none := by
    rw [h1]; simp [Chan.trySend]
  have h2 : (publishResult (publishResult (New cfg) c1).1 c2).1
      = (publishResult (New cfg) c1).1 := by
    generalize (publishResult (New cfg) c1).1 = a1 at hs ⊢
    unfold publishResult
    simp only [hs]
    split <;> rfl
  have hl : (⟨.trace, "testsResult channel already populated; skipping dispatch", []⟩ : LogEntry)
      ∈ (publishResult (publishResult (New cfg) c1).1 c2).2 := by
    generalize (publishResult (New cfg) c1).1 = a1 at hs ⊢
    unfold publishResult
    simp only [hs]
    split <;> simp
  refine ⟨hs, h2, hl, ?_, ?_, ?_⟩
  · rw [h2, h1]
  · rw [h2, h1]; rfl
  · intro ctxDone
    rw [h2, h1]
    by_cases ho : cfg.Once = true <;>
      simp [selectPass, Chan.tryRecv, testsResultCase, New, ho, testsFinishedLog]

/-! ## Properties of `Shutdown` -/

/-- After a call of `Shutdown` the `sync.Once` has fired. -/
theorem Shutdown_fires_once (env : ShutdownEnv) (a : App) :
    (Shutdown env a).1.shutdownOnce = true := by
  unfold Shutdown
  by_cases h : a.shutdownOnce = true <;> simp [h]

/-- A call of `Shutdown` whose `sync.Once` has fired does nothing. -/
theorem Shutdown_of_fired (env : ShutdownEnv) (a : App) (h : a.shutdownOnce = true) :
    Shutdown env a = (a, []) := by
  simp [Shutdown, h]

/-- The first call of `Shutdown` clears the three handles and performs, in this
order, one termination if there was a subprocess, one page close if there was a
page, one browser close if there was a browser, and no other call. -/
theorem Shutdown_first_call (env : ShutdownEnv) (a : App) (h : a.shutdownOnce = false) :
    (Shutdown env a).1.meteorCmd = none ∧ (Shutdown env a).1.page = none ∧
    (Shutdown env a).1.browser = none ∧
    calls (Shutdown env a).2
      = a.meteorCmd.toList.map Effect.terminate ++ a.page.toList.map Effect.pageClose
        ++ a.browser.toList.map Effect.browserClose := by
  obtain ⟨cfg, port, cmd, tr, me, sc, so, br, pg⟩ := a
  obtain ⟨e1, e2, e3⟩ := env
  simp only at h
  subst h
  cases cmd <;> cases pg <;> cases br <;> cases e1 <;> cases e2 <;> cases e3 <;>
    simp [Shutdown, shutdownMeteor, shutdownPage, shutdownBrowser, calls, Effect.isLog]

/-- C6: `Shutdown` is idempotent. In every application state (with or without
a subprocess, a page, a browser) a second call changes nothing and has no
effect at all, so two calls leave the state and the release effects of one
call; over both calls the subprocess termination, the page close and the
browser close are each invoked at most once; and after the first call ever made
on the application (its `sync.Once` not yet fired) the three handles are nil
and exactly the handles that were present have been released. -/
theorem Shutdown_idempotent (env1 env2 : ShutdownEnv) (a : App) :
    (Shutdown env2 (Shutdown env1 a).1).1 = (Shutdown env1 a).1 ∧
    (Shutdown env1 a).2 ++ (Shutdown env2 (Shutdown env1 a).1).2 = (Shutdown env1 a).2 ∧
    ((Shutdown env1 a).2 ++ (Shutdown env2 (Shutdown env1 a).1).2).countP Effect.isTerminate ≤ 1 ∧
    ((Shutdown env1 a).2 ++ (Shutdown env2 (Shutdown env1 a).1).2).countP Effect.isPageClose ≤ 1 ∧
    ((Shutdown env1 a).2 ++ (Shutdown env2 (Shutdown env1 a).1).2).countP Effect.isBrowserClose ≤ 1 ∧
    (a.shutdownOnce = false →
      (Shutdown env1 a).1.meteorCmd = none ∧ (Shutdown env1 a).1.page = none ∧
      (Shutdown env1 a).1.browser = none ∧
      calls (Shutdown env1 a).2
        = a.meteorCmd.toList.map Effect.terminate ++ a.page.toList.map Effect.pageClose
          ++ a.browser.toList.map Effect.browserClose) := by
  have h2 : Shutdown env2 (Shutdown env1 a).1 = ((Shutdown env1 a).1, []) :=
    Shutdown_of_fired env2 _ (Shutdown_fires_once env1 a)
  rw [h2]
  simp only [List.append_nil, true_and]
  refine ⟨?_, ?_, ?_, Shutdown_first_call env1 a⟩
  all_goals
    obtain ⟨cfg, port, cmd, tr, me, sc, so, br, pg⟩ := a
    obtain ⟨e1, e2, e3⟩ := env1
    cases so <;> cases cmd <;> cases pg <;> cases br <;> cases e1 <;> cases e2 <;> cases e3 <;>
      simp [Shutdown, shutdownMeteor, shutdownPage, shutdownBrowser, List.countP_cons,
        Effect.isTerminate, Effect.isPageClose, Effect.isBrowserClose]

/-- C6 at two states: an application on which `Run` never started (no
subprocess, no browser), and one holding a subprocess, a page and a browser
whose release calls all fail. -/
theorem Shutdown_idempotent_witness :
    ((New {}).shutdownOnce = false ∧
      (Shutdown {} (Shutdown {} (New {})).1).1 = (Shutdown {} (New {})).1 ∧
      calls (Shutdown {} (New {})).2 = []) ∧
    (runningApp.shutdownOnce = false ∧
      calls (Shutdown ⟨some "e1", some "e2", some "e3"⟩ runningApp).2
        = [.terminate ⟨"meteor", ["test-packages"], some 4242⟩, .pageClose ⟨0⟩,
           .browserClose ⟨"ws://127.0.0.1:9222"⟩]) :=
  ⟨⟨rfl, (Shutdown_idempotent {} {} (New {})).1,
      ((Shutdown_idempotent {} {} (New {})).2.2.2.2.2 rfl).2.2.2⟩,
   ⟨rfl, ((Shutdown_idempotent ⟨some "e1", some "e2", some "e3"⟩ {}
      runningApp).2.2.2.2.2 rfl).2.2.2⟩⟩

/-! ## Properties of `startMeteor` -/

/-- C7: for every configuration and resolved port, the argument list built by
`startMeteor` is the six fixed leading arguments (the port in decimal, then the
package name) followed, in this order and with nothing else, by `--once` iff
`Once`; `--release` and the release iff it is non-empty; `--inspect` iff
`Inspect`; `--inspect-brk` iff `InspectBrk`; `--settings` and the path iff it
is non-empty; `--test-app-path` and the path iff it is non-empty. The command
handed to the system carries exactly this list, after `/c meteor` on Windows. -/
theorem startMeteor_args (env : MeteorEnv) (a : App) :
    meteorArgs a
      = ["test-packages", "--driver-package", "test-in-console", "-p", toString a.port,
          a.cfg.PackageName]
        ++ (if a.cfg.Once = true then ["--once"] else [])
        ++ (if a.cfg.Release = "" then [] else ["--release", a.cfg.Release])
        ++ (if a.cfg.Inspect = true then ["--inspect"] else [])
        ++ (if a.cfg.InspectBrk = true then ["--inspect-brk"] else [])
        ++ (if a.cfg.SettingsPath = "" then [] else ["--settings", a.cfg.SettingsPath])
        ++ (if a.cfg.TestAppPath = "" then [] else ["--test-app-path", a.cfg.TestAppPath]) ∧
    (meteorCommand env a).args
      = (if env.goos = "windows" then ["/c", "meteor"] else []) ++ meteorArgs a := by
  constructor
  · unfold meteorArgs Itoa
    by_cases h1 : a.cfg.Once = true <;> by_cases h2 : a.cfg.Release = "" <;>
      by_cases h3 : a.cfg.Inspect = true <;> by_cases h4 : a.cfg.InspectBrk = true <;>
      by_cases h5 : a.cfg.SettingsPath = "" <;> by_cases h6 : a.cfg.TestAppPath = "" <;>
      simp [h1, h2, h3, h4, h5, h6]
  · unfold meteorCommand
    by_cases h : env.goos = "windows" <;> simp [h]

/-! ## Properties of the ready detector -/

/-- The scan `startsWith` decides "is an initial segment of". -/
theorem startsWith_iff (s sub : List Char) :
    startsWith s sub = true ↔ ∃ post, s = sub ++ post := by
  induction sub generalizing s with
  | nil => simp [startsWith]
  | cons d ds ih =>
    cases s with
    | nil => simp [startsWith]
    | cons c cs =>
      simp only [startsWith, Bool.and_eq_true, beq_iff_eq, ih, List.cons_append,
        List.cons.injEq]
      constructor
      · rintro ⟨rfl, post, rfl⟩; exact ⟨post, rfl, rfl⟩
      · rintro ⟨post, rfl, rfl⟩; exact ⟨rfl, post, rfl⟩

/-- The scan `containsChars` decides "occurs somewhere in". -/
theorem containsChars_iff (s sub : List Char) :
    containsChars s sub = true ↔ ∃ pre post, s = pre ++ sub ++ post := by
  induction s with
  | nil =>
    simp only [containsChars, startsWith_iff]
    constructor
    · rintro ⟨post, h⟩; exact ⟨[], post, by simpa using h⟩
    · rintro ⟨pre, post, h⟩
      have h1 : pre ++ sub ++ post = [] := h.symm
      simp only [List.append_eq_nil] at h1
      exact ⟨[], by simp [h1.1.2]⟩
  | cons c cs ih =>
    simp only [containsChars, Bool.or_eq_true, startsWith_iff, ih]
    constructor
    · rintro (⟨post, h⟩ | ⟨pre, post, h⟩)
      · exact ⟨[], post, by simpa using h⟩
      · exact ⟨c :: pre, post, by simp [h]⟩
    · rintro ⟨pre, post, h⟩
      cases pre with
      | nil => exact Or.inl ⟨post, by simpa using h⟩
      | cons p ps =>
        simp only [List.cons_append, List.cons.injEq] at h
        exact Or.inr ⟨ps, post, h.2⟩

/-- The function `Contains` decides the substring relation on strings. -/
theorem Contains_iff (s sub : String) :
    Contains s sub = true ↔ ∃ pre post : String, s = pre ++ sub ++ post := by
  unfold Contains
  rw [containsChars_iff]
  constructor
  · rintro ⟨pre, post, h⟩
    exact ⟨⟨pre⟩, ⟨post⟩, String.ext (by simpa using h)⟩
  · rintro ⟨pre, post, h⟩
    exact ⟨pre.data, post.data, by rw [h]; simp⟩

/-- C8: for every line, `containsReadyMarker` is true exactly when the line
contains `10015` or `test-in-console listening` as a substring; it is true for
"Meteor ready on 10015" and false for "starting up". -/
theorem containsReadyMarker_iff (a : App) (line : String) :
    (containsReadyMarker a line = true ↔
      (∃ pre post : String, line = pre ++ "10015" ++ post) ∨
      (∃ pre post : String, line = pre ++ "test-in-console listening" ++ post)) ∧
    containsReadyMarker a "Meteor ready on 10015" = true ∧
    containsReadyMarker a "starting up" = false := by
  refine ⟨?_, ?_, ?_⟩
  · rw [← Contains_iff, ← Contains_iff]
    unfold containsReadyMarker readyMarkers containsMarkerIn containsMarkerIn containsMarkerIn
    by_cases h1 : Contains line "10015" = true <;>
      by_cases h2 : Contains line "test-in-console listening" = true <;> simp [h1, h2]
  · show containsMarkerIn "Meteor ready on 10015" readyMarkers = true
    decide
  · show containsMarkerIn "starting up" readyMarkers = false
    decide

/-! ## Properties of the port resolver -/

/-- A swap keeps the length of the slice. -/
theorem swapPorts_length (l : List Int) (i j : Nat) : (swapPorts l i j).length = l.length := by
  simp [swapPorts]

/-- Writing back the element already at an index changes nothing. -/
theorem set_getElem_same (l : List Int) (i : Nat) (hi : i < l.length) : l.set i l[i] = l := by
  apply List.ext_getElem (by simp)
  intro n h1 h2
  by_cases hn : i = n
  · subst hn; simp
  · rw [List.getElem_set_ne hn]

/-- A swap of two positions inside the slice rearranges it. -/
theorem swapPorts_perm (l : List Int) (i j : Nat) (hi : i < l.length) (hj : j < l.length) :
    (swapPorts l i j).Perm l := by
  rw [List.perm_iff_count]
  intro b
  unfold swapPorts
  rw [List.getD_eq_getElem _ _ hi, List.getD_eq_getElem _ _ hj]
  by_cases hij : i = j
  · subst hij
    simp [set_getElem_same l i hi]
  · rw [List.count_set _ _ _ _ (by simpa using hj), List.count_set _ _ _ _ hi,
      List.getElem_set_ne hij]
    have h1 : (if (l[i] == b) = true then 1 else 0) ≤ l.count b := by
      split
      · rename_i h
        have hb : l[i] = b := by simpa using h
        rw [← hb]
        exact List.count_pos_iff.mpr (List.getElem_mem _)
      · exact Nat.zero_le _
    generalize (if (l[i] == b) = true then 1 else 0) = x at h1 ⊢
    generalize (if (l[j] == b) = true then 1 else 0) = y
    omega

/-- The shuffle loop started at an index inside the slice rearranges it. -/
theorem shuffleFrom_perm (rnd : Nat → Nat) (i : Nat) :
    ∀ l : List Int, i < l.length → (shuffleFrom rnd i l).Perm l := by
  induction i with
  | zero => intro l _; exact List.Perm.refl _
  | succ k ih =>
    intro l h
    have hj : rnd (k + 1) % (k + 2) < l.length :=
      lt_of_lt_of_le (Nat.mod_lt _ (by omega)) (by omega)
    exact (ih _ (by rw [swapPorts_length]; omega)).trans (swapPorts_perm l _ _ h hj)

/-- Whatever the random source draws, `Shuffle` returns a rearrangement of its
input: nothing is lost, added or repeated. -/
theorem Shuffle_perm (rnd : Nat → Nat) (l : List Int) : (Shuffle rnd l).Perm l := by
  unfold Shuffle
  cases l with
  | nil => exact List.Perm.refl _
  | cons x xs => exact shuffleFrom_perm rnd _ _ (by simp)

/-- The candidates are exactly the integers of `[10000, 12000)`. -/
theorem mem_portCandidates (p : Int) : p ∈ portCandidates ↔ 10000 ≤ p ∧ p < 12000 := by
  have h : (defaultPortMax - defaultPortMin).toNat = 2000 := by decide
  have hmin : defaultPortMin = 10000 := rfl
  unfold portCandidates
  rw [h, hmin]
  simp only [List.mem_map, List.mem_range]
  constructor
  · rintro ⟨i, hi, rfl⟩
    simp only [Int.ofNat_eq_coe]
    omega
  · rintro ⟨h1, h2⟩
    exact ⟨(p - 10000).toNat, by omega, by simp only [Int.ofNat_eq_coe]; omega⟩

/-- The probe loop succeeds exactly when some candidate can be bound. -/
theorem probePorts_ok_iff (listen : Int → Bool) (l : List Int) :
    (probePorts listen l).1.2 = none ↔ ∃ p ∈ l, listen p = true := by
  induction l with
  | nil => simp [probePorts]
  | cons q rest ih =>
    unfold probePorts
    by_cases h : listen q = true
    · simp [h]
    · simp [h, ih]

/-- When the probe loop succeeds, the port it returns is the first candidate
that could be bound: every candidate before it was probed and refused, it was
probed, bound and its listener closed, and nothing after it was touched. -/
theorem probePorts_first (listen : Int → Bool) (l : List Int)
    (h : (probePorts listen l).1.2 = none) :
    ∃ pre post, l = pre ++ (probePorts listen l).1.1 :: post ∧
      (∀ q ∈ pre, listen q = false) ∧ listen (probePorts listen l).1.1 = true ∧
      calls (probePorts listen l).2
        = pre.map (fun q => Effect.listen q false)
          ++ [.listen (probePorts listen l).1.1 true,
              .listenerClose (probePorts listen l).1.1] := by
  induction l with
  | nil => simp [probePorts] at h
  | cons q rest ih =>
    by_cases hq : listen q = true
    · refine ⟨[], rest, ?_, by simp, ?_, ?_⟩ <;>
        simp [probePorts, hq, calls, Effect.isLog]
    · have hr : (probePorts listen (q :: rest)).1 = (probePorts listen rest).1 := by
        simp [probePorts, hq]
      have ht : calls (probePorts listen (q :: rest)).2
          = .listen q false :: calls (probePorts listen rest).2 := by
        simp [probePorts, hq, calls, Effect.isLog]
      rw [hr] at h ⊢
      obtain ⟨pre, post, h1, h2, h3, h4⟩ := ih h
      refine ⟨q :: pre, post, by simp [← h1], ?_, h3, by rw [ht, h4]; simp⟩
      intro x hx
      rcases List.mem_cons.mp hx with rfl | hx
      · simpa using hq
      · exact h2 x hx

/-- Without a configured port, `resolvePort` is the probe loop on the shuffled
candidates, after one log line. -/
theorem resolvePort_unset (env : PortEnv) (a : App) (h : ¬ a.cfg.Port > 0) :
    resolvePort env a
      = ((probePorts env.listen (Shuffle env.rnd portCandidates)).1,
         .log ⟨.debug, "no port specified; attempting dynamic discovery", []⟩
           :: (probePorts env.listen (Shuffle env.rnd portCandidates)).2) := by
  unfold resolvePort
  exact if_neg h

/-- A result made of the probe loop on a list of candidates after one log line:
when it carries no error, its port is the first candidate that could be
bound. -/
theorem discovery_first (listen : Int → Bool) (l : List Int) (e : LogEntry)
    (x : (Int × Option String) × List Effect)
    (hx : x = ((probePorts listen l).1, .log e :: (probePorts listen l).2))
    (hOk : x.1.2 = none) :
    ∃ pre post, l = pre ++ x.1.1 :: post ∧
      (∀ q ∈ pre, listen q = false) ∧ listen x.1.1 = true ∧
      calls x.2
        = pre.map (fun q => Effect.listen q false)
          ++ [.listen x.1.1 true, .listenerClose x.1.1] ∧
      x.1.1 ∈ l := by
  subst hx
  obtain ⟨pre, post, h1, h2, h3, h4⟩ := probePorts_first listen l hOk
  refine ⟨pre, post, h1, h2, h3, ?_, ?_⟩
  · simpa [calls, Effect.isLog] using h4
  · have hm : (probePorts listen l).1.1 ∈ pre ++ (probePorts listen l).1.1 :: post := by simp
    rw [← h1] at hm
    exact hm

/-- A result made of the probe loop on a list of candidates after one log line
carries no error exactly when some candidate can be bound. -/
theorem discovery_ok_iff (listen : Int → Bool) (l : List Int) (e : LogEntry)
    (x : (Int × Option String) × List Effect)
    (hx : x = ((probePorts listen l).1, .log e :: (probePorts listen l).2)) :
    x.1.2 = none ↔ ∃ p ∈ l, listen p = true := by
  subst hx
  exact probePorts_ok_iff listen l

/-- C9: for every configured port `p > 0`, `resolvePort` returns `(p, nil)`
and its only effect is one log line: no listener is opened, whether or not `p`
lies in `[10000, 12000)` and whatever a bind on `p` would have answered. -/
theorem resolvePort_configured (env : PortEnv) (a : App) (h : a.cfg.Port > 0) :
    (resolvePort env a).1 = (a.cfg.Port, none) ∧
    (resolvePort env a).2
      = [.log ⟨.debug, "using CLI-specified port", [("port", Itoa a.cfg.Port)]⟩] ∧
    calls (resolvePort env a).2 = [] := by
  have hx : resolvePort env a
      = ((a.cfg.Port, none),
         [.log ⟨.debug, "using CLI-specified port", [("port", Itoa a.cfg.Port)]⟩]) := by
    unfold resolvePort
    exact if_pos h
  rw [hx]
  exact ⟨rfl, rfl, rfl⟩

/-- C9 at the port of the repository's test (10555) and at a port outside the
discovery range (80), on a machine where no port can be bound. -/
theorem resolvePort_configured_witness :
    ((New { Port := 10555 }).cfg.Port > 0 ∧
      (resolvePort noFreePort (New { Port := 10555 })).1 = ((New { Port := 10555 }).cfg.Port, none) ∧
      calls (resolvePort noFreePort (New { Port := 10555 })).2 = []) ∧
    ((New { Port := 80 }).cfg.Port > 0 ∧
      (resolvePort noFreePort (New { Port := 80 })).1 = ((New { Port := 80 }).cfg.Port, none)) :=
  ⟨⟨by decide,
      (resolvePort_configured noFreePort (New { Port := 10555 }) (by decide)).1,
      (resolvePort_configured noFreePort (New { Port := 10555 }) (by decide)).2.2⟩,
   ⟨by decide, (resolvePort_configured noFreePort (New { Port := 80 }) (by decide)).1⟩⟩

/-- C10: with no configured port (`Port <= 0`), for every sequence of draws of
the random source and every answer of the bind probes, if `resolvePort`
succeeds then the port it returns is the first candidate of the shuffled order
whose probe bound: the candidates before it were each probed and refused, it
was bound and its probe listener closed as the last effect, and it lies in
`[10000, 12000)`. -/
theorem resolvePort_discovers_first_free (env : PortEnv) (a : App)
    (hPort : a.cfg.Port ≤ 0) (hOk : (resolvePort env a).1.2 = none) :
    ∃ pre post, Shuffle env.rnd portCandidates = pre ++ (resolvePort env a).1.1 :: post ∧
      (∀ q ∈ pre, env.listen q = false) ∧ env.listen (resolvePort env a).1.1 = true ∧
      calls (resolvePort env a).2
        = pre.map (fun q => Effect.listen q false)
          ++ [.listen (resolvePort env a).1.1 true, .listenerClose (resolvePort env a).1.1] ∧
      10000 ≤ (resolvePort env a).1.1 ∧ (resolvePort env a).1.1 < 12000 := by
  obtain ⟨pre, post, hs, hpre, hp, hc, hmem⟩ :=
    discovery_first env.listen (Shuffle env.rnd portCandidates) _ (resolvePort env a)
      (resolvePort_unset env a (not_lt.mpr hPort)) hOk
  exact ⟨pre, post, hs, hpre, hp, hc,
    (mem_portCandidates _).mp ((Shuffle_perm env.rnd portCandidates).mem_iff.mp hmem)⟩

/-- C10 on a machine where only port 10007 can be bound: discovery succeeds,
and the port returned is one that can be bound, inside the range. -/
theorem resolvePort_discovers_first_free_witness :
    ((New {}).cfg.Port ≤ 0 ∧ (resolvePort onlyPort10007 (New {})).1.2 = none) ∧
    ∃ pre post,
      Shuffle onlyPort10007.rnd portCandidates
        = pre ++ (resolvePort onlyPort10007 (New {})).1.1 :: post ∧
      (∀ q ∈ pre, onlyPort10007.listen q = false) ∧
      onlyPort10007.listen (resolvePort onlyPort10007 (New {})).1.1 = true ∧
      calls (resolvePort onlyPort10007 (New {})).2
        = pre.map (fun q => Effect.listen q false)
          ++ [.listen (resolvePort onlyPort10007 (New {})).1.1 true,
              .listenerClose (resolvePort onlyPort10007 (New {})).1.1] ∧
      10000 ≤ (resolvePort onlyPort10007 (New {})).1.1 ∧
      (resolvePort onlyPort10007 (New {})).1.1 < 12000 :=
  have hOk : (resolvePort onlyPort10007 (New {})).1.2 = none :=
    (discovery_ok_iff onlyPort10007.listen (Shuffle onlyPort10007.rnd portCandidates) _
      (resolvePort onlyPort10007 (New {}))
      (resolvePort_unset onlyPort10007 (New {}) (by decide))).mpr
      ⟨10007, (Shuffle_perm _ _).mem_iff.mpr ((mem_portCandidates 10007).mpr (by decide)),
        by decide⟩
  ⟨⟨by decide, hOk⟩,
    resolvePort_discovers_first_free onlyPort10007 (New {}) (by decide) hOk⟩

/-- The candidates are 2000 different ports. -/
theorem portCandidates_nodup : portCandidates.Nodup ∧ portCandidates.length = 2000 := by
  have h : (defaultPortMax - defaultPortMin).toNat = 2000 := by decide
  unfold portCandidates
  rw [h]
  refine ⟨?_, by simp⟩
  apply List.Nodup.map _ (List.nodup_range 2000)
  intro i j hij
  simp only [Int.ofNat_eq_coe] at hij
  omega

/-- When no candidate can be bound, the probe loop probes every candidate of
its list once, in order, and returns port 0 with the exhaustion error. -/
theorem probePorts_exhausted (listen : Int → Bool) (l : List Int)
    (h : ∀ p ∈ l, listen p = false) :
    (probePorts listen l).1 = (0, some "no available port found in range 10000-11999") ∧
    calls (probePorts listen l).2 = l.map (fun q => Effect.listen q false) := by
  induction l with
  | nil => simp [probePorts, calls, Effect.isLog]
  | cons q rest ih =>
    have hq : listen q = false := h q (List.mem_cons_self _ _)
    obtain ⟨h1, h2⟩ := ih (fun p hp => h p (List.mem_cons_of_mem _ hp))
    have hr : probePorts listen (q :: rest)
        = ((probePorts listen rest).1,
           .log ⟨.trace, "probing port availability", [("port", Itoa q)]⟩
             :: .listen q false :: (probePorts listen rest).2) := by
      simp [probePorts, hq]
    rw [hr]
    refine ⟨h1, ?_⟩
    have hc : calls (.log ⟨.trace, "probing port availability", [("port", Itoa q)]⟩
        :: .listen q false :: (probePorts listen rest).2)
        = .listen q false :: calls (probePorts listen rest).2 := by
      simp [calls, Effect.isLog]
    rw [hc, h2]
    rfl

/-- A result made of the probe loop on a list of candidates after one log
line is the exhaustion failure exactly when no candidate can be bound, and then
every candidate was probed once, in the order of the list. -/
theorem discovery_fails_iff (listen : Int → Bool) (l : List Int) (e : LogEntry)
    (x : (Int × Option String) × List Effect)
    (hx : x = ((probePorts listen l).1, .log e :: (probePorts listen l).2)) :
    (x.1 = (0, some "no available port found in range 10000-11999")
      ↔ ∀ p ∈ l, listen p = false) ∧
    ((∀ p ∈ l, listen p = false) → calls x.2 = l.map (fun q => Effect.listen q false)) := by
  subst hx
  constructor
  · constructor
    · intro h p hp
      have hne : ¬ (probePorts listen l).1.2 = none := by
        simp only at h
        rw [h]; simp
      rw [probePorts_ok_iff] at hne
      cases hl : listen p with
      | false => rfl
      | true => exact absurd ⟨p, hp, hl⟩ hne
    · intro h
      exact (probePorts_exhausted listen l h).1
  · intro h
    have hc : calls (.log e :: (probePorts listen l).2) = calls (probePorts listen l).2 := by
      simp [calls, Effect.isLog]
    simp only
    rw [hc]
    exact (probePorts_exhausted listen l h).2

/-- C11: with no configured port (`Port <= 0`), `resolvePort` returns port 0
with the error "no available port found in range 10000-11999" if and only if
the bind probe fails for every port of `[10000, 12000)`. The shuffled candidate
list is a rearrangement of the 2000 different ports of that range, so no port
is skipped and none is probed twice: on failure the probes made are exactly the
shuffled candidates, one refused probe each. -/
theorem resolvePort_fails_iff_all_refused (env : PortEnv) (a : App) (hPort : a.cfg.Port ≤ 0) :
    ((resolvePort env a).1 = (0, some "no available port found in range 10000-11999")
      ↔ ∀ p : Int, 10000 ≤ p → p < 12000 → env.listen p = false) ∧
    (Shuffle env.rnd portCandidates).Perm portCandidates ∧
    (Shuffle env.rnd portCandidates).Nodup ∧
    (Shuffle env.rnd portCandidates).length = 2000 ∧
    (∀ p : Int, p ∈ Shuffle env.rnd portCandidates ↔ 10000 ≤ p ∧ p < 12000) ∧
    ((∀ p : Int, 10000 ≤ p → p < 12000 → env.listen p = false) →
      calls (resolvePort env a).2
        = (Shuffle env.rnd portCandidates).map (fun q => Effect.listen q false)) := by
  have hperm := Shuffle_perm env.rnd portCandidates
  have hmem : ∀ p : Int, p ∈ Shuffle env.rnd portCandidates ↔ 10000 ≤ p ∧ p < 12000 :=
    fun p => (hperm.mem_iff).trans (mem_portCandidates p)
  have hall : (∀ p ∈ Shuffle env.rnd portCandidates, env.listen p = false)
      ↔ ∀ p : Int, 10000 ≤ p → p < 12000 → env.listen p = false := by
    constructor
    · intro h p h1 h2; exact h p ((hmem p).mpr ⟨h1, h2⟩)
    · intro h p hp; exact h p ((hmem p).mp hp).1 ((hmem p).mp hp).2
  obtain ⟨h1, h2⟩ := discovery_fails_iff env.listen (Shuffle env.rnd portCandidates) _
    (resolvePort env a) (resolvePort_unset env a (not_lt.mpr hPort))
  refine ⟨h1.trans hall, hperm, hperm.nodup_iff.mpr portCandidates_nodup.1,
    hperm.length_eq.trans portCandidates_nodup.2, hmem, fun h => h2 (hall.mpr h)⟩

/-- C11 on a machine where no port can be bound: discovery is exhausted. -/
theorem resolvePort_fails_iff_all_refused_witness :
    (New {}).cfg.Port ≤ 0 ∧
    (resolvePort noFreePort (New {})).1
      = (0, some "no available port found in range 10000-11999") :=
  ⟨by decide,
   (resolvePort_fails_iff_all_refused noFreePort (New {}) (by decide)).1.mpr
     (fun _ _ _ => rfl)⟩

/-! ## Properties of the verbosity flag -/

/-- What `Set("+")` does: on a non-nil target below the limit, one more; in
every other case nothing. -/
theorem Set_plus (toLower : String → String) (v : VerbosityValue) :
    v.Set toLower "+"
      = match v.target with
        | none => v
        | some level => if level < v.limit then { v with target := some (level + 1) } else v := by
  unfold VerbosityValue.Set
  cases v.target with
  | none => rfl
  | some level =>
    have h1 : TrimSpace "+" = "+" := by decide
    simp only [h1]
    rw [if_neg (by decide)]
    exact if_pos trivial

/-- C19: verbosity increments saturate at 5. Starting from the default level
3, after `n` calls `Set("+")` the level is `min (3 + n) 5`; for every level at
most 5, one increment gives `min (level + 1) 5`, so an increment never takes
the level above 5. -/
theorem verbosity_increments_saturate (toLower : String → String) (start : Int) :
    (∀ n : Nat,
      (increments toLower (NewVerbosityValue (some start) defaultVerbosity) n).target
        = some (min (3 + (n : Int)) 5)) ∧
    (∀ level : Int, level ≤ 5 →
      (VerbosityValue.Set toLower ⟨some level, 5⟩ "+").target = some (min (level + 1) 5)) ∧
    (∀ level : Int, level ≤ 5 →
      ∃ l2, (VerbosityValue.Set toLower ⟨some level, 5⟩ "+").target = some l2 ∧ l2 ≤ 5) := by
  have hstep : ∀ level : Int, level ≤ 5 →
      VerbosityValue.Set toLower ⟨some level, 5⟩ "+" = ⟨some (min (level + 1) 5), 5⟩ := by
    intro level h
    rw [Set_plus]
    by_cases hl : level < 5
    · have : min (level + 1) 5 = level + 1 := min_eq_left (by omega)
      simp [hl, this]
    · have h5 : level = 5 := by omega
      subst h5
      simp
  refine ⟨?_, fun level h => by rw [hstep level h], fun level h => ?_⟩
  · intro n
    have hv : ∀ n : Nat, increments toLower (NewVerbosityValue (some start) defaultVerbosity) n
        = ⟨some (min (3 + (n : Int)) 5), 5⟩ := by
      intro n
      induction n with
      | zero => simp [increments, NewVerbosityValue, defaultVerbosity]
      | succ k ih =>
        simp only [increments, ih]
        rw [hstep _ (min_le_right _ _)]
        congr 2
        push_cast
        omega
    rw [hv n]
  · exact ⟨min (level + 1) 5, by rw [hstep level h], min_le_right _ _⟩

/-- C19 on the repository's tests: from the default 3, one `-v` gives 4, three
give 5; and an increment at level 5 stays at 5. -/
theorem verbosity_increments_saturate_witness :
    (increments id (NewVerbosityValue (some 0) defaultVerbosity) 1).target = some 4 ∧
    (increments id (NewVerbosityValue (some 0) defaultVerbosity) 3).target = some 5 ∧
    ((5 : Int) ≤ 5 ∧ (VerbosityValue.Set id ⟨some 5, 5⟩ "+").target = some (min (5 + 1) 5)) :=
  ⟨(verbosity_increments_saturate id 0).1 1, (verbosity_increments_saturate id 0).1 3,
   le_refl 5, (verbosity_increments_saturate id 0).2.1 5 (le_refl 5)⟩

/-! ## Properties of the test poller -/

/-- A tick whose "done" evaluation is not true is skipped: the loop returns
what it returns on the following events. -/
theorem pollLoop_skip (lib : Lib) (p : Poll) (rest : List PollEvent)
    (h : p.isDone = false) :
    (pollLoop lib (.tick p :: rest)).1 = (pollLoop lib rest).1 := by
  obtain ⟨done, failures⟩ := p
  unfold Poll.isDone at h
  cases done with
  | error err => simp [pollLoop, testsDone]
  | ok r =>
    cases r with
    | none => simp [pollLoop, testsDone]
    | some res =>
      simp only at h
      simp [pollLoop, testsDone, h]

/-- A tick whose "done" evaluation is true ends the loop with the outcome of
the failure-count evaluation: its count, or 1 with its error. -/
theorem pollLoop_done (lib : Lib) (p : Poll) (rest : List PollEvent)
    (h : p.isDone = true) :
    (pollLoop lib (.tick p :: rest)).1
      = some (match (fetchFailures lib p.failures).1 with
              | (_, some err) => (1, some err)
              | (n, none) => (n, none)) := by
  obtain ⟨done, failures⟩ := p
  unfold Poll.isDone at h
  cases done with
  | error err => simp at h
  | ok r =>
    cases r with
    | none => simp at h
    | some res =>
      simp only at h
      rcases hf : fetchFailures lib failures with ⟨⟨n, e⟩, flogs⟩
      cases e <;> simp [pollLoop, testsDone, h, hf]

/-- C13: with no cancellation, `waitForTests` skips every tick whose "done"
evaluation errors, yields false or yields no result, and returns at the first
tick whose "done" evaluation is true, whatever comes after it: `(n, nil)` when
the failure-count evaluation of that tick yields `n`, and `(1, err)` when it
fails with `err`. As long as no tick is done it has not returned. -/
theorem waitForTests_returns_at_first_done (lib : Lib) (pre : List Poll) (p : Poll)
    (rest : List PollEvent) (hpre : ∀ q ∈ pre, q.isDone = false) (hp : p.isDone = true) :
    (waitForTests lib (pre.map PollEvent.tick)).1 = none ∧
    (∀ n : Int, (fetchFailures lib p.failures).1 = (n, none) →
      (waitForTests lib (pre.map PollEvent.tick ++ .tick p :: rest)).1 = some (n, none)) ∧
    (∀ (k : Int) (err : Error), (fetchFailures lib p.failures).1 = (k, some err) →
      (waitForTests lib (pre.map PollEvent.tick ++ .tick p :: rest)).1
        = some (1, some err)) := by
  have hskip : ∀ tail : List PollEvent,
      (pollLoop lib (pre.map PollEvent.tick ++ tail)).1 = (pollLoop lib tail).1 := by
    intro tail
    induction pre with
    | nil => rfl
    | cons q qs ih =>
      simp only [List.map_cons, List.cons_append]
      rw [pollLoop_skip lib q _ (hpre q (List.mem_cons_self _ _))]
      exact ih (fun x hx => hpre x (List.mem_cons_of_mem _ hx))
  refine ⟨?_, ?_, ?_⟩
  · have h := hskip []
    simp only [List.append_nil] at h
    simp only [waitForTests, h]
    rfl
  · intro n hn
    simp only [waitForTests, hskip, pollLoop_done lib p rest hp, hn]
  · intro k err hk
    simp only [waitForTests, hskip, pollLoop_done lib p rest hp, hk]

/-- C13 on a run of three skipped ticks (tests running, evaluation error, no
result) followed by a tick that is done with 3 failures, and by one that is
done while the failure count cannot be evaluated. -/
theorem waitForTests_returns_at_first_done_witness :
    ((∀ q ∈ [pollRunning, pollBroken, pollSilent], q.isDone = false) ∧
      pollDone3.isDone = true ∧ pollDoneBroken.isDone = true) ∧
    (waitForTests exampleLib
      ([pollRunning, pollBroken, pollSilent].map PollEvent.tick
        ++ .tick pollDone3 :: [.tick pollRunning])).1 = some (3, none) ∧
    (waitForTests exampleLib
      ([pollRunning, pollBroken, pollSilent].map PollEvent.tick
        ++ .tick pollDoneBroken :: [])).1 = some (1, some (.other "target closed")) :=
  have h1 : ∀ q ∈ [pollRunning, pollBroken, pollSilent], q.isDone = false := by
    intro q hq
    simp only [List.mem_cons, List.mem_singleton, List.not_mem_nil, or_false] at hq
    rcases hq with rfl | rfl | rfl <;> rfl
  ⟨⟨h1, rfl, rfl⟩,
   (waitForTests_returns_at_first_done exampleLib [pollRunning, pollBroken, pollSilent]
      pollDone3 [.tick pollRunning] h1 rfl).2.1 3 (by decide),
   (waitForTests_returns_at_first_done exampleLib [pollRunning, pollBroken, pollSilent]
      pollDoneBroken [] h1 rfl).2.2 0 (.other "target closed") rfl⟩

/-! ## Properties of `fetchFailures` -/

/-- The character printed for a digit below ten is that decimal digit. -/
theorem digitVal_digitChar (k : Nat) (h : k < 10) : digitVal (Nat.digitChar k) = some k := by
  interval_cases k <;> decide

/-- A printed digit is not white space. -/
theorem isSpace_digitChar (k : Nat) (h : k < 10) : isSpace (Nat.digitChar k) = false := by
  interval_cases k <;> decide

/-- Reading back the digits printed for `n` in front of `ds` continues from
`n`. -/
theorem parseDigits_toDigitsCore (fuel : Nat) :
    ∀ (n : Nat) (ds : List Char), n < fuel →
      parseDigits 0 (Nat.toDigitsCore 10 fuel n ds) = parseDigits n ds := by
  induction fuel with
  | zero => intro n ds h; omega
  | succ f ih =>
    intro n ds h
    unfold Nat.toDigitsCore
    by_cases h0 : n / 10 = 0
    · simp only [h0, if_true]
      have hn : n % 10 = n := Nat.mod_eq_of_lt (by omega)
      rw [hn]
      simp [parseDigits, digitVal_digitChar n (by omega)]
    · simp only [h0, if_false]
      rw [ih (n / 10) _ (by omega)]
      simp only [parseDigits, digitVal_digitChar (n % 10) (Nat.mod_lt _ (by decide))]
      congr 1
      omega

/-- Reading back the decimal form of a natural number gives the number. -/
theorem parseDigits_toDigits (n : Nat) : parseDigits 0 (Nat.toDigits 10 n) = some n := by
  unfold Nat.toDigits
  rw [parseDigits_toDigitsCore (n + 1) n [] (by omega)]
  rfl

/-- The printed digits are decimal digits, in front of what was there. -/
theorem toDigitsCore_shape (fuel : Nat) :
    ∀ (n : Nat) (ds : List Char), n < fuel →
      ∃ c cs, Nat.toDigitsCore 10 fuel n ds = c :: cs ++ ds ∧
        (∀ x ∈ c :: cs, ∃ k, k < 10 ∧ x = Nat.digitChar k) := by
  induction fuel with
  | zero => intro n ds h; omega
  | succ f ih =>
    intro n ds _
    unfold Nat.toDigitsCore
    by_cases h0 : n / 10 = 0
    · simp only [h0, if_true]
      exact ⟨Nat.digitChar (n % 10), [], rfl, by
        intro x hx
        simp only [List.mem_singleton] at hx
        exact ⟨n % 10, Nat.mod_lt _ (by decide), hx⟩⟩
    · simp only [h0, if_false]
      obtain ⟨c, cs, h1, h2⟩ := ih (n / 10) (Nat.digitChar (n % 10) :: ds) (by omega)
      refine ⟨c, cs ++ [Nat.digitChar (n % 10)], by rw [h1]; simp, ?_⟩
      intro x hx
      simp only [List.mem_cons, List.mem_append, List.mem_singleton, List.not_mem_nil,
        or_false] at hx
      rcases hx with hx | hx | hx
      · exact h2 x (by simp [hx])
      · exact h2 x (by simp [hx])
      · exact ⟨n % 10, Nat.mod_lt _ (by decide), hx⟩

/-- The decimal form of a natural number is a non-empty run of decimal
digits. -/
theorem toDigits_shape (n : Nat) :
    ∃ c cs, Nat.toDigits 10 n = c :: cs ∧
      (∀ x ∈ c :: cs, ∃ k, k < 10 ∧ x = Nat.digitChar k) := by
  obtain ⟨c, cs, h1, h2⟩ := toDigitsCore_shape (n + 1) n [] (by omega)
  exact ⟨c, cs, by simpa [Nat.toDigits] using h1, h2⟩

/-- Dropping leading white space from white space followed by a list that
does not start with white space leaves that list. -/
theorem dropWhile_spaces_append (ws body : List Char) (hws : ∀ c ∈ ws, isSpace c = true)
    (hb : ∀ c ∈ body.head?, isSpace c = false) :
    (ws ++ body).dropWhile isSpace = body := by
  induction ws with
  | nil =>
    cases body with
    | nil => rfl
    | cons b bs =>
      have : isSpace b = false := hb b (by simp)
      simp [List.dropWhile, this]
  | cons w ws ih =>
    have hw : isSpace w = true := hws w (List.mem_cons_self _ _)
    simp only [List.cons_append, List.dropWhile, hw]
    exact ih (fun c hc => hws c (List.mem_cons_of_mem _ hc))

/-- Trimming a non-empty list that neither starts nor ends with white space,
put between two runs of white space, gives the list back. -/
theorem trimChars_padded (ws1 ws2 : List Char) (b : Char) (bs : List Char)
    (h1 : ∀ c ∈ ws1, isSpace c = true) (h2 : ∀ c ∈ ws2, isSpace c = true)
    (hhead : isSpace b = false)
    (hlast : ∀ c ∈ (b :: bs).getLast?, isSpace c = false) :
    trimChars (ws1 ++ (b :: bs) ++ ws2) = b :: bs := by
  unfold trimChars
  rw [List.append_assoc, dropWhile_spaces_append ws1 ((b :: bs) ++ ws2) h1
    (by intro c hc; simp at hc; rw [← hc]; exact hhead)]
  rw [List.reverse_append, dropWhile_spaces_append ws2.reverse (b :: bs).reverse
    (fun c hc => h2 c (List.mem_reverse.mp hc))]
  · exact List.reverse_reverse _
  · intro c hc
    rw [List.head?_reverse] at hc
    exact hlast c hc

/-- The characters of the decimal form of an integer: the digits of its
absolute value, after a minus sign when it is negative. -/
theorem Itoa_data (n : Int) :
    (Itoa n).data
      = if n < 0 then '-' :: Nat.toDigits 10 n.natAbs else Nat.toDigits 10 n.natAbs := by
  cases n with
  | ofNat m =>
    have : ¬ (Int.ofNat m < 0) := by simp
    rw [if_neg this]
    rfl
  | negSucc m =>
    have : Int.negSucc m < 0 := Int.negSucc_lt_zero m
    rw [if_pos this]
    rfl

/-- A printed digit is neither a sign nor white space. -/
theorem digitChar_not_sign (k : Nat) (h : k < 10) :
    Nat.digitChar k ≠ '-' ∧ Nat.digitChar k ≠ '+' := by
  interval_cases k <;> decide

/-- A numeral that starts with a digit has no sign to take off. -/
theorem splitSign_digit (c : Char) (cs : List Char) (h1 : c ≠ '-') (h2 : c ≠ '+') :
    splitSign (c :: cs) = (false, c :: cs) := by
  unfold splitSign
  split
  · rename_i h; simp only [List.cons.injEq] at h; exact absurd h.1 h1
  · rename_i h; simp only [List.cons.injEq] at h; exact absurd h.1 h2
  · rfl

/-- Reading the decimal form of an integer within the range of `int` gives
the integer back. -/
theorem Atoi_Itoa (n : Int) (h1 : minInt ≤ n) (h2 : n ≤ maxInt) : Atoi (Itoa n) = some n := by
  obtain ⟨c, cs, hd, hall⟩ := toDigits_shape n.natAbs
  obtain ⟨k, hk, hc⟩ := hall c (List.mem_cons_self _ _)
  have hparse := parseDigits_toDigits n.natAbs
  rw [hd] at hparse
  unfold Atoi
  rw [Itoa_data, hd]
  by_cases hneg : n < 0
  · rw [if_pos hneg]
    have hs : splitSign ('-' :: c :: cs) = (true, c :: cs) := rfl
    rw [hs]
    have hv : -(Int.ofNat n.natAbs) = n := by
      simp only [Int.ofNat_eq_coe]; omega
    simp only [List.isEmpty_cons, hparse, signedValue, ↓reduceIte, hv, Bool.false_eq_true]
    rw [if_pos ⟨h1, h2⟩]
  · rw [if_neg hneg]
    rw [splitSign_digit c cs (hc ▸ (digitChar_not_sign k hk).1) (hc ▸ (digitChar_not_sign k hk).2)]
    have hv : Int.ofNat n.natAbs = n := by
      simp only [Int.ofNat_eq_coe]; omega
    simp only [List.isEmpty_cons, hparse, signedValue, ↓reduceIte, hv, Bool.false_eq_true]
    rw [if_pos ⟨h1, h2⟩]

/-- The decimal form of an integer, put between two runs of white space, is
what `TrimSpace` gives back. -/
theorem TrimSpace_Itoa (n : Int) (ws1 ws2 : String)
    (h1 : ∀ c ∈ ws1.data, isSpace c = true) (h2 : ∀ c ∈ ws2.data, isSpace c = true) :
    TrimSpace (ws1 ++ Itoa n ++ ws2) = Itoa n := by
  obtain ⟨c, cs, hd, hall⟩ := toDigits_shape n.natAbs
  have hdigit : ∀ x ∈ c :: cs, isSpace x = false := by
    intro x hx
    obtain ⟨k, hk, rfl⟩ := hall x hx
    exact isSpace_digitChar k hk
  have hlast : ∀ x ∈ (c :: cs).getLast?, isSpace x = false := by
    intro x hx
    exact hdigit x (List.mem_of_getLast?_eq_some hx)
  apply String.ext
  simp only [TrimSpace, String.data_append]
  rw [Itoa_data, hd]
  by_cases hneg : n < 0
  · rw [if_pos hneg]
    apply trimChars_padded ws1.data ws2.data '-' (c :: cs) h1 h2 (by decide)
    intro x hx
    rw [List.getLast?_cons_cons] at hx
    exact hlast x hx
  · rw [if_neg hneg]
    exact trimChars_padded ws1.data ws2.data c cs h1 h2 (hdigit c (List.mem_cons_self _ _)) hlast

/-- The halving loop finds the position of the highest bit. -/
theorem log2Fuel_spec : ∀ (fuel n : Nat), n ≤ fuel → n ≠ 0 →
    2 ^ log2Fuel fuel n ≤ n ∧ n < 2 ^ (log2Fuel fuel n + 1)
  | 0, n, h, h0 => absurd (Nat.le_zero.mp h) h0
  | fuel + 1, n, h, h0 => by
    unfold log2Fuel
    by_cases h2 : 2 ≤ n
    · rw [if_pos h2]
      have hle : n / 2 ≤ fuel := by omega
      have hne : n / 2 ≠ 0 := by omega
      obtain ⟨ih1, ih2⟩ := log2Fuel_spec fuel (n / 2) hle hne
      constructor
      · rw [Nat.pow_succ]
        omega
      · rw [Nat.pow_succ]
        omega
    · rw [if_neg h2]
      constructor
      · simp only [Nat.pow_zero]
        omega
      · simp only [Nat.zero_add, Nat.pow_one]
        omega

/-- A positive `n` lies between `2 ^ log2 n` and the next power of two. -/
theorem log2_spec (n : Nat) (h0 : n ≠ 0) : 2 ^ log2 n ≤ n ∧ n < 2 ^ (log2 n + 1) :=
  log2Fuel_spec n n (Nat.le_refl n) h0

/-- Rounding an exact quotient changes nothing. -/
theorem roundHalfEven_dvd (num den : Nat) (hd : 0 < den) (h : den ∣ num) :
    roundHalfEven num den = num / den := by
  unfold roundHalfEven
  rw [Nat.mod_eq_zero_of_dvd h, if_pos (by omega)]

/-- The binary logarithm of a positive integer. -/
theorem floorLog2_one (p : Nat) (h0 : p ≠ 0) : floorLog2 p 1 = Int.ofNat (log2 p) := by
  have h1 : log2 1 = 0 := by decide
  unfold floorLog2
  rw [h1, if_pos (Nat.zero_le _), Nat.sub_zero, Nat.one_mul, if_pos (log2_spec p h0).1]

/-- An integer of the form `± m · 2 ^ j` with `m < 2 ^ 53` is a float64 value:
decoding it rounds nothing away. -/
theorem toFloat64_magnitude (n : Int) (m j : Nat) (hm : m < 2 ^ 53)
    (hn : n.natAbs = m * 2 ^ j) :
    (toFloat64 (n : Rat)).magnitude = n.natAbs ∧ (toFloat64 (n : Rat)).neg = decide (n < 0) := by
  unfold toFloat64
  simp only [Rat.intCast_num, Rat.intCast_den]
  by_cases hz : n = 0
  · subst hz
    simp [Float64.magnitude]
  rw [if_neg hz]
  have hp : n.natAbs ≠ 0 := fun h => hz (Int.natAbs_eq_zero.mp h)
  have hu : ulpExp n.natAbs 1 = Int.ofNat (log2 n.natAbs) - 52 := by
    unfold ulpExp
    rw [floorLog2_one _ hp, if_pos]
    simp only [Int.ofNat_eq_coe]
    omega
  obtain ⟨hlo, hhi⟩ := log2_spec _ hp
  rw [hu]
  by_cases hk : 52 ≤ log2 n.natAbs
  · have he : (Int.ofNat (log2 n.natAbs) - 52 : Int) = Int.ofNat (log2 n.natAbs - 52) := by
      simp only [Int.ofNat_eq_coe]
      omega
    have hnn : (0 : Int) ≤ Int.ofNat (log2 n.natAbs - 52) := Int.ofNat_zero_le _
    rw [he, if_pos hnn]
    refine ⟨?_, rfl⟩
    simp only [Float64.magnitude, if_pos hnn, Int.toNat_ofNat, Nat.one_mul]
    have hej : log2 n.natAbs - 52 ≤ j := by
      by_contra hlt
      have h1 : j + 53 ≤ log2 n.natAbs := by omega
      have h2 : 2 ^ (j + 53) ≤ 2 ^ log2 n.natAbs := Nat.pow_le_pow_right (by decide) h1
      have h3 : m * 2 ^ j < 2 ^ 53 * 2 ^ j := Nat.mul_lt_mul_of_pos_right hm (Nat.two_pow_pos _)
      rw [← Nat.pow_add, Nat.add_comm 53 j] at h3
      omega
    have hdvd : 2 ^ (log2 n.natAbs - 52) ∣ n.natAbs := by
      have hd : 2 ^ (log2 n.natAbs - 52) ∣ m * 2 ^ j := Dvd.dvd.mul_left (Nat.pow_dvd_pow 2 hej) m
      rw [← hn] at hd
      exact hd
    have htn : (Int.ofNat (log2 n.natAbs - 52)).toNat = log2 n.natAbs - 52 := rfl
    rw [htn]
    rw [roundHalfEven_dvd _ _ (Nat.two_pow_pos _) hdvd]
    exact Nat.div_mul_cancel hdvd
  · have he : (Int.ofNat (log2 n.natAbs) - 52 : Int) = -Int.ofNat (52 - log2 n.natAbs) := by
      simp only [Int.ofNat_eq_coe]
      omega
    have hneg : ¬ (0 : Int) ≤ -Int.ofNat (52 - log2 n.natAbs) := by
      simp only [Int.ofNat_eq_coe]
      omega
    rw [he, if_neg hneg]
    refine ⟨?_, rfl⟩
    simp only [Float64.magnitude, if_neg hneg, Int.neg_neg, Int.toNat_ofNat]
    rw [roundHalfEven_dvd _ _ Nat.one_pos (Nat.one_dvd _), Nat.div_one]
    exact Nat.mul_div_cancel _ (Nat.two_pow_pos _)

/-- Truncating the float64 decoded from an integer that is a float64 value
gives that integer. -/
theorem toFloat64_trunc (n : Int) (m j : Nat) (hm : m < 2 ^ 53) (hn : n.natAbs = m * 2 ^ j) :
    (toFloat64 (n : Rat)).trunc = n := by
  obtain ⟨h1, h2⟩ := toFloat64_magnitude n m j hm hn
  unfold Float64.trunc
  rw [h1, h2]
  by_cases hneg : n < 0
  · simp only [hneg, decide_True, if_true, Int.ofNat_eq_coe]
    omega
  · simp only [hneg, decide_False, Int.ofNat_eq_coe]
    simp only [Bool.false_eq_true, if_false]
    omega

/-- The conversion to `int` of a number that is an integer, a float64 value and
within the range of `int` is that integer. -/
theorem floatToInt_float64 (lib : Lib) (n : Int) (m j : Nat) (hm : m < 2 ^ 53)
    (hn : n.natAbs = m * 2 ^ j) (h1 : minInt ≤ n) (h2 : n ≤ maxInt) :
    floatToInt lib (n : Rat) = n := by
  unfold floatToInt
  rw [toFloat64_trunc n m j hm hn, if_pos ⟨h1, h2⟩]

/-- C14, amended: `fetchFailures` returns 0 for an absent result; for a
string-typed result, 0 when the string is blank after trimming and the parsed
integer when `strconv.Atoi` reads the trimmed string (a decimal integer within
the range of `int`); for a string that it does not read and for a result of any
other type, the integer coercion `Value.Int()` of the raw value. Hence for
every integer `n` within the range of `int`, the string form of `n`, with any
white space around it, gives the count `n`, and the numeric result `n` gives
the count `n` when `n` is a float64 value, that is `± m · 2 ^ j` with
`m < 2 ^ 53` (every `n` up to `2 ^ 53` in absolute value is one). -/
theorem fetchFailures_count (lib : Lib) :
    (fetchFailures lib (.ok none)).1 = (0, none) ∧
    (∀ res : RemoteObject, res.type = "string" → TrimSpace (res.value.Str lib) = "" →
      (fetchFailures lib (.ok (some res))).1 = (0, none)) ∧
    (∀ (res : RemoteObject) (n : Int), res.type = "string" →
      Atoi (TrimSpace (res.value.Str lib)) = some n →
      (fetchFailures lib (.ok (some res))).1 = (n, none)) ∧
    (∀ res : RemoteObject, res.type = "string" → TrimSpace (res.value.Str lib) ≠ "" →
      Atoi (TrimSpace (res.value.Str lib)) = none →
      (fetchFailures lib (.ok (some res))).1 = (res.value.Int lib, none)) ∧
    (∀ res : RemoteObject, res.type ≠ "string" →
      (fetchFailures lib (.ok (some res))).1 = (res.value.Int lib, none)) ∧
    (∀ (n : Int) (m j : Nat), minInt ≤ n → n ≤ maxInt → m < 2 ^ 53 → n.natAbs = m * 2 ^ j →
      (fetchFailures lib (.ok (some ⟨"number", .number (n : Rat), ""⟩))).1 = (n, none)) ∧
    (∀ n : Int, minInt ≤ n → n ≤ maxInt → n.natAbs ≤ 2 ^ 53 →
      (fetchFailures lib (.ok (some ⟨"number", .number (n : Rat), ""⟩))).1 = (n, none)) ∧
    (∀ (n : Int) (ws1 ws2 : String), minInt ≤ n → n ≤ maxInt →
      (∀ c ∈ ws1.data, isSpace c = true) → (∀ c ∈ ws2.data, isSpace c = true) →
      (fetchFailures lib (.ok (some ⟨"string", .string (ws1 ++ Itoa n ++ ws2), ""⟩))).1
        = (n, none)) := by
  have hstr : ∀ (res : RemoteObject) (n : Int), res.type = "string" →
      Atoi (TrimSpace (res.value.Str lib)) = some n →
      (fetchFailures lib (.ok (some res))).1 = (n, none) := by
    intro res n ht ha
    have hne : TrimSpace (res.value.Str lib) ≠ "" := by
      intro h
      rw [h] at ha
      have hnone : Atoi "" = none := by decide
      rw [hnone] at ha
      exact Option.noConfusion ha
    simp only [fetchFailures, RuntimeRemoteObjectTypeString, ht, if_true, if_neg hne, ha]
  have hnum : ∀ res : RemoteObject, res.type ≠ "string" →
      (fetchFailures lib (.ok (some res))).1 = (res.value.Int lib, none) := by
    intro res ht
    simp only [fetchFailures, RuntimeRemoteObjectTypeString, if_neg ht]
  have hfloat : ∀ (n : Int) (m j : Nat), minInt ≤ n → n ≤ maxInt → m < 2 ^ 53 →
      n.natAbs = m * 2 ^ j →
      (fetchFailures lib (.ok (some ⟨"number", .number (n : Rat), ""⟩))).1 = (n, none) := by
    intro n m j h1 h2 hm hn
    have hty : ("number" : String) ≠ "string" := by decide
    rw [hnum _ hty]
    simp only [JSON.Int, floatToInt_float64 lib n m j hm hn h1 h2]
  refine ⟨rfl, ?_, hstr, ?_, hnum, hfloat, ?_, ?_⟩
  · intro res ht he
    simp only [fetchFailures, RuntimeRemoteObjectTypeString, ht, if_true, he]
  · intro res ht hne ha
    simp only [fetchFailures, RuntimeRemoteObjectTypeString, ht, if_true, if_neg hne, ha]
  · intro n h1 h2 hn
    by_cases hlt : n.natAbs < 2 ^ 53
    · exact hfloat n n.natAbs 0 h1 h2 hlt (by simp)
    · have heq : n.natAbs = 2 ^ 52 * 2 ^ 1 := by
        have h53 : (2 : Nat) ^ 52 * 2 ^ 1 = 2 ^ 53 := by decide
        omega
      exact hfloat n (2 ^ 52) 1 h1 h2 (by decide) heq
  · intro n ws1 ws2 h1 h2 hw1 hw2
    apply hstr _ n rfl
    simp only [JSON.Str]
    rw [TrimSpace_Itoa n ws1 ws2 hw1 hw2, Atoi_Itoa n h1 h2]

/-- C14, amended, on examples: the number 3, the number 2^60 and the strings
" 3\n" and "-12" give 3, 2^60, 3 and -12; a blank string gives 0; a string that
is not a numeral gives the coercion of the raw value. -/
theorem fetchFailures_count_witness :
    (((minInt ≤ 3 ∧ (3 : Int) ≤ maxInt ∧ (3 : Int).natAbs ≤ 2 ^ 53) ∧
        (fetchFailures exampleLib (.ok (some ⟨"number", .number ((3 : Int) : Rat), ""⟩))).1
          = (3, none)) ∧
      ((minInt ≤ 1152921504606846976 ∧ (1152921504606846976 : Int) ≤ maxInt ∧
          1 < 2 ^ 53 ∧ (1152921504606846976 : Int).natAbs = 1 * 2 ^ 60) ∧
        (fetchFailures exampleLib
          (.ok (some ⟨"number", .number ((1152921504606846976 : Int) : Rat), ""⟩))).1
          = (1152921504606846976, none)) ∧
      ((∀ c ∈ " ".data, isSpace c = true) ∧ (∀ c ∈ "\n".data, isSpace c = true)) ∧
        (fetchFailures exampleLib
          (.ok (some ⟨"string", .string (" " ++ Itoa 3 ++ "\n"), ""⟩))).1 = (3, none)) ∧
    (("string" = "string" ∧ Atoi (TrimSpace (JSON.Str exampleLib (.string "-12"))) = some (-12)) ∧
      (fetchFailures exampleLib (.ok (some ⟨"string", .string "-12", ""⟩))).1 = (-12, none)) ∧
    (("string" = "string" ∧ TrimSpace (JSON.Str exampleLib (.string "  ")) = "") ∧
      (fetchFailures exampleLib (.ok (some ⟨"string", .string "  ", ""⟩))).1 = (0, none)) ∧
    (("string" = "string" ∧ TrimSpace (JSON.Str exampleLib (.string "many")) ≠ "" ∧
        Atoi (TrimSpace (JSON.Str exampleLib (.string "many"))) = none) ∧
      (fetchFailures exampleLib (.ok (some ⟨"string", .string "many", ""⟩))).1
        = (JSON.Int exampleLib (.string "many"), none)) :=
  ⟨⟨⟨⟨by decide, by decide, by decide⟩,
      (fetchFailures_count exampleLib).2.2.2.2.2.2.1 3 (by decide) (by decide) (by decide)⟩,
     ⟨⟨by decide, by decide, by decide, by decide⟩,
      (fetchFailures_count exampleLib).2.2.2.2.2.1 1152921504606846976 1 60 (by decide)
        (by decide) (by decide) (by decide)⟩,
     ⟨by decide, by decide⟩,
     (fetchFailures_count exampleLib).2.2.2.2.2.2.2 3 " " "\n" (by decide) (by decide)
       (by decide) (by decide)⟩,
   ⟨⟨rfl, by decide⟩,
     (fetchFailures_count exampleLib).2.2.1 ⟨"string", .string "-12", ""⟩ (-12) rfl (by decide)⟩,
   ⟨⟨rfl, by decide⟩,
     (fetchFailures_count exampleLib).2.1 ⟨"string", .string "  ", ""⟩ rfl (by decide)⟩,
   ⟨⟨rfl, by decide, by decide⟩,
     (fetchFailures_count exampleLib).2.2.2.1 ⟨"string", .string "many", ""⟩ rfl (by decide)
       (by decide)⟩⟩

/-- C14 as stated, for every integer `n`, fails. The string form of `2 ^ 63`,
which `strconv.Atoi` rejects as out of range, gives the coercion of the raw
string, 0. The numeric result `2 ^ 53 + 1` is not a float64 value and is decoded
as `2 ^ 53`. The numeric result `2 ^ 63 - 1`, the largest `int`, is decoded as
`2 ^ 63`, which `int` does not hold, and gives the result of the overflowing
conversion (the smallest `int` on amd64), as does the numeric result
`2 ^ 63`, which is a float64 value. -/
theorem fetchFailures_count_counterexample :
    (Itoa 9223372036854775808 = "9223372036854775808" ∧
      (fetchFailures exampleLib
        (.ok (some ⟨"string", .string "9223372036854775808", ""⟩))).1 = (0, none) ∧
      (fetchFailures exampleLib
        (.ok (some ⟨"string", .string "9223372036854775808", ""⟩))).1
          ≠ (9223372036854775808, none)) ∧
    ((fetchFailures exampleLib
        (.ok (some ⟨"number", .number ((9007199254740993 : Int) : Rat), ""⟩))).1
          = (9007199254740992, none) ∧
      (fetchFailures exampleLib
        (.ok (some ⟨"number", .number ((9007199254740993 : Int) : Rat), ""⟩))).1
          ≠ (9007199254740993, none)) ∧
    ((fetchFailures exampleLib
        (.ok (some ⟨"number", .number ((9223372036854775807 : Int) : Rat), ""⟩))).1
          = (minInt, none) ∧
      (fetchFailures exampleLib
        (.ok (some ⟨"number", .number ((9223372036854775807 : Int) : Rat), ""⟩))).1
          ≠ (9223372036854775807, none)) ∧
    ((fetchFailures exampleLib
        (.ok (some ⟨"number", .number ((9223372036854775808 : Int) : Rat), ""⟩))).1
          = (minInt, none) ∧
      (fetchFailures exampleLib
        (.ok (some ⟨"number", .number ((9223372036854775808 : Int) : Rat), ""⟩))).1
          ≠ (9223372036854775808, none)) := by
  refine ⟨⟨by decide, by decide, by decide⟩, ⟨by decide, by decide⟩, ⟨by decide, by decide⟩,
    ⟨by decide, by decide⟩⟩

/-! ## Properties of the console relay -/

/-- The loop of `consoleMessage` appends to `parts` the rendering of each
argument that could be decoded, in argument order. -/
theorem consoleParts_eq (lib : Lib) (decode : Decoder) (args : List RemoteObject) :
    ∀ (parts : List String) (logs : List LogEntry),
      (consoleParts lib decode args parts logs).1
        = parts ++ args.filterMap (renderArg lib decode) := by
  induction args with
  | nil => intro parts logs; simp [consoleParts]
  | cons arg rest ih =>
    intro parts logs
    unfold consoleParts
    cases hd : decode arg with
    | error err => simp [renderArg, hd, ih, List.filterMap_cons]
    | ok v =>
      cases v with
      | string s => simp [renderArg, hd, ih, List.filterMap_cons]
      | null => cases hm : lib.marshal .null <;> simp [renderArg, hd, hm, ih, List.filterMap_cons]
      | bool b =>
        cases hm : lib.marshal (.bool b) <;> simp [renderArg, hd, hm, ih, List.filterMap_cons]
      | number q =>
        cases hm : lib.marshal (.number q) <;>
          simp [renderArg, hd, hm, ih, List.filterMap_cons]
      | array items =>
        cases hm : lib.marshal (.array items) <;>
          simp [renderArg, hd, hm, ih, List.filterMap_cons]
      | object fields =>
        cases hm : lib.marshal (.object fields) <;>
          simp [renderArg, hd, hm, ih, List.filterMap_cons]

/-- The message of `consoleMessage` is the trimmed join of the renderings. -/
theorem consoleMessage_eq (lib : Lib) (decode : Decoder) (args : List RemoteObject) :
    (consoleMessage lib decode args).1
      = TrimSpace (Join (args.filterMap (renderArg lib decode)) " ") := by
  unfold consoleMessage
  cases args with
  | nil => simp only [List.length_nil, if_true, List.filterMap_nil]; decide
  | cons a rest =>
    have h : ¬ ((a :: rest).length = 0) := by simp
    rw [if_neg h]
    simp only [consoleParts_eq, List.nil_append]
    split <;> rfl

/-- C15: for every list of console arguments, `consoleMessage` returns the
white-space-trimmed join with single spaces, in argument order, of the
renderings of the arguments that could be decoded: a string as itself, any
other value as its JSON serialization. The empty list gives the empty string,
and the arguments "hello" and 42 give "hello 42". -/
theorem consoleMessage_format (lib : Lib) (decode : Decoder) :
    (∀ args : List RemoteObject,
      (consoleMessage lib decode args).1
        = TrimSpace (" ".intercalate (args.filterMap (renderArg lib decode)))) ∧
    (∀ (arg : RemoteObject) (s : String), decode arg = .ok (.string s) →
      renderArg lib decode arg = some s) ∧
    (∀ (arg : RemoteObject) (v : JSON) (buf : String), decode arg = .ok v →
      (∀ s, v ≠ .string s) → lib.marshal v = .ok buf → renderArg lib decode arg = some buf) ∧
    (consoleMessage lib decode []).1 = "" ∧
    (∀ a1 a2 : RemoteObject, decode a1 = .ok (.string "hello") →
      decode a2 = .ok (.number 42) → lib.marshal (.number 42) = .ok "42" →
      (consoleMessage lib decode [a1, a2]).1 = "hello 42") := by
  refine ⟨fun args => consoleMessage_eq lib decode args, ?_, ?_, rfl, ?_⟩
  · intro arg s h
    simp [renderArg, h]
  · intro arg v buf h hv hm
    cases v with
    | string s => exact absurd rfl (hv s)
    | null => simp [renderArg, h, hm]
    | bool b => simp [renderArg, h, hm]
    | number q => simp [renderArg, h, hm]
    | array items => simp [renderArg, h, hm]
    | object fields => simp [renderArg, h, hm]
  · intro a1 a2 h1 h2 hm
    rw [consoleMessage_eq]
    simp only [List.filterMap_cons, List.filterMap_nil, renderArg, h1, h2, hm]
    decide

/-- C15 on the example of the specification: the console arguments "hello" and
42, carried by value, are formatted as "hello 42". -/
theorem consoleMessage_format_witness :
    (decodeByValue ⟨"string", .string "hello", ""⟩ = .ok (.string "hello") ∧
      decodeByValue ⟨"number", .number 42, ""⟩ = .ok (.number 42) ∧
      exampleLib.marshal (.number 42) = .ok "42") ∧
    (consoleMessage exampleLib decodeByValue
      [⟨"string", .string "hello", ""⟩, ⟨"number", .number 42, ""⟩]).1 = "hello 42" :=
  ⟨⟨rfl, rfl, rfl⟩,
   (consoleMessage_format exampleLib decodeByValue).2.2.2.2
     ⟨"string", .string "hello", ""⟩ ⟨"number", .number 42, ""⟩ rfl rfl rfl⟩

/-- C16: for every console event, the handler installed by `startBrowser`
prints the formatted message on standard output if and only if it is non-empty
and different from the sentinel "##_meteor_magic##state: done"; what it prints
is that message, unchanged and once; a message equal to the sentinel is never
printed. -/
theorem consoleHandler_forwards (lib : Lib) (decode : Decoder) (args : List RemoteObject) :
    printed (consoleHandler lib decode args)
      = (if (consoleMessage lib decode args).1 ≠ ""
            ∧ (consoleMessage lib decode args).1 ≠ "##_meteor_magic##state: done"
         then [(consoleMessage lib decode args).1] else []) ∧
    (∀ line : String, BrowserEffect.println line ∈ consoleHandler lib decode args ↔
      (line = (consoleMessage lib decode args).1 ∧ line ≠ ""
        ∧ line ≠ "##_meteor_magic##state: done")) ∧
    BrowserEffect.println consoleSentinel ∉ consoleHandler lib decode args ∧
    BrowserEffect.println "" ∉ consoleHandler lib decode args := by
  have hlog : ∀ (logs : List LogEntry) (line : String),
      BrowserEffect.println line ∉ logs.map BrowserEffect.log := by
    intro logs line h
    simp at h
  have hp : ∀ logs : List LogEntry, printed (logs.map BrowserEffect.log) = [] := by
    intro logs
    induction logs with
    | nil => rfl
    | cons l ls ih => simp [printed]
  have hmem : ∀ line : String, BrowserEffect.println line ∈ consoleHandler lib decode args ↔
      (line = (consoleMessage lib decode args).1 ∧ line ≠ ""
        ∧ line ≠ "##_meteor_magic##state: done") := by
    intro line
    unfold consoleHandler
    simp only [consoleSentinel]
    by_cases h : (consoleMessage lib decode args).1 = ""
        ∨ (consoleMessage lib decode args).1 = "##_meteor_magic##state: done"
    · rw [if_pos h]
      constructor
      · intro hin; exact absurd hin (hlog _ _)
      · rintro ⟨rfl, h1, h2⟩
        rcases h with h | h
        · exact absurd h h1
        · exact absurd h h2
    · rw [if_neg h]
      simp only [List.mem_append, List.mem_cons, List.mem_singleton, List.not_mem_nil,
        or_false, BrowserEffect.println.injEq]
      constructor
      · rintro (hin | hin | hin)
        · exact absurd hin (hlog _ _)
        · simp at hin
        · subst hin
          exact ⟨rfl, fun h1 => h (Or.inl h1), fun h2 => h (Or.inr h2)⟩
      · rintro ⟨rfl, _, _⟩
        exact Or.inr (Or.inr rfl)
  refine ⟨?_, hmem, ?_, ?_⟩
  · unfold consoleHandler
    simp only [consoleSentinel]
    by_cases h : (consoleMessage lib decode args).1 = ""
        ∨ (consoleMessage lib decode args).1 = "##_meteor_magic##state: done"
    · rw [if_pos h, if_neg (by tauto), hp]
    · rw [if_neg h, if_pos (by tauto)]
      simp only [printed, List.filterMap_append] 
      have := hp (consoleMessage lib decode args).2
      simp only [printed] at this
      rw [this]
      rfl
  · intro hin
    exact ((hmem consoleSentinel).mp hin).2.2 rfl
  · intro hin
    exact ((hmem "").mp hin).2.1 rfl

/-! ## Properties of the browser session -/

/-- One failed, uncancelled attempt of the navigation loop: the loop goes on
with the next attempt, having recorded the error and called `Navigate` once. -/
theorem waitForPageLoop_failed (env : PageEnv) (url : String) (remaining attempt : Nat)
    (lastErr : Option Error) (err : Error) (hctx : env.ctxDone attempt = false)
    (herr : attemptError env attempt = some err) :
    (waitForPageLoop env url (remaining + 1) attempt lastErr).1
      = (waitForPageLoop env url remaining (attempt + 1) (some err)).1 ∧
    navigations (waitForPageLoop env url (remaining + 1) attempt lastErr).2
      = navigations (waitForPageLoop env url remaining (attempt + 1) (some err)).2 + 1 := by
  unfold attemptError at herr
  rw [waitForPageLoop]
  cases hn : env.navigate attempt with
  | some e =>
    rw [hn] at herr
    simp only [Option.some.injEq] at herr
    subst herr
    simp [hctx, navigations]
  | none =>
    rw [hn] at herr
    simp only at herr
    simp [hctx, herr, navigations]

/-- The navigation loop when the context is never cancelled and every attempt
still to be made fails: all the remaining attempts are made, one `Navigate`
each, and the error returned wraps the error recorded last. -/
theorem waitForPageLoop_exhausted (env : PageEnv) (url : String) (total : Nat)
    (hctx : ∀ i, i < total → env.ctxDone i = false)
    (hfail : ∀ i, i < total → attemptError env i ≠ none) :
    ∀ (remaining attempt : Nat) (lastErr : Option Error), attempt + remaining = total →
      (waitForPageLoop env url remaining attempt lastErr).1
        = some (.wrap ("unable to load " ++ url ++ ": ")
            (match (if remaining = 0 then lastErr else attemptError env (total - 1)) with
             | some err => err
             | none => .other "unknown navigation error")) ∧
      navigations (waitForPageLoop env url remaining attempt lastErr).2 = remaining := by
  intro remaining
  induction remaining with
  | zero =>
    intro attempt lastErr _
    simp [waitForPageLoop, navigations]
  | succ r ih =>
    intro attempt lastErr hsum
    have hlt : attempt < total := by omega
    obtain ⟨err, herr⟩ := Option.ne_none_iff_exists'.mp (hfail attempt hlt)
    obtain ⟨h1, h2⟩ := waitForPageLoop_failed env url r attempt lastErr err
      (hctx attempt hlt) herr
    obtain ⟨h3, h4⟩ := ih (attempt + 1) (some err) (by omega)
    rw [h1, h2, h3, h4]
    refine ⟨?_, rfl⟩
    by_cases hr : r = 0
    · have ha : attempt = total - 1 := by omega
      simp [hr, ← ha, herr]
    · simp [hr]

/-- C12: if the context is never cancelled and every navigation attempt fails
(`Navigate`, or the `WaitLoad` after it, returns an error), `waitForPage` makes
exactly 10 attempts and returns one error, which wraps the error of the last
attempt and whose message is "unable to load <url>: <message of that error>",
so that it contains the target URL. -/
theorem waitForPage_exhausted (env : PageEnv) (url : String)
    (hctx : ∀ i, i < 10 → env.ctxDone i = false)
    (hfail : ∀ i, i < 10 → attemptError env i ≠ none) :
    ∃ last : Error, attemptError env 9 = some last ∧
      (waitForPage env url).1 = some (.wrap ("unable to load " ++ url ++ ": ") last) ∧
      ((waitForPage env url).1.map Error.message
        = some ("unable to load " ++ url ++ ": " ++ last.message)) ∧
      (waitForPage env url).1.bind Error.unwrap = some last ∧
      navigations (waitForPage env url).2 = 10 ∧
      (∀ msg ∈ (waitForPage env url).1.map Error.message, Contains msg url = true) := by
  obtain ⟨last, hlast⟩ := Option.ne_none_iff_exists'.mp (hfail 9 (by omega))
  obtain ⟨h1, h2⟩ := waitForPageLoop_exhausted env url 10 hctx hfail 10 0 none rfl
  have hres : (waitForPage env url).1
      = some (.wrap ("unable to load " ++ url ++ ": ") last) := by
    unfold waitForPage
    rw [h1]
    simp [hlast]
  refine ⟨last, hlast, hres, ?_, ?_, h2, ?_⟩
  · rw [hres]; rfl
  · rw [hres]; rfl
  · intro msg hmsg
    rw [hres] at hmsg
    simp only [Option.map_some', Option.mem_def, Option.some.injEq, Error.message] at hmsg
    rw [Contains_iff]
    exact ⟨"unable to load ", ": " ++ last.message, by rw [← hmsg, String.append_assoc]⟩

/-- C12 on a test server that refuses nine connections and then never finishes
loading: ten attempts, and one error that wraps the last one. -/
theorem waitForPage_exhausted_witness :
    ((∀ i, i < 10 → pageRefused.ctxDone i = false) ∧
      (∀ i, i < 10 → attemptError pageRefused i ≠ none)) ∧
    ∃ last : Error, attemptError pageRefused 9 = some last ∧
      (waitForPage pageRefused "http://localhost:10555").1
        = some (.wrap ("unable to load " ++ "http://localhost:10555" ++ ": ") last) ∧
      ((waitForPage pageRefused "http://localhost:10555").1.map Error.message
        = some ("unable to load " ++ "http://localhost:10555" ++ ": " ++ last.message)) ∧
      (waitForPage pageRefused "http://localhost:10555").1.bind Error.unwrap = some last ∧
      navigations (waitForPage pageRefused "http://localhost:10555").2 = 10 ∧
      (∀ msg ∈ (waitForPage pageRefused "http://localhost:10555").1.map Error.message,
        Contains msg "http://localhost:10555" = true) :=
  have h1 : ∀ i, i < 10 → pageRefused.ctxDone i = false := fun _ _ => rfl
  have h2 : ∀ i, i < 10 → attemptError pageRefused i ≠ none := by
    intro i _
    unfold attemptError pageRefused
    by_cases h : i < 9 <;> simp [h]
  ⟨⟨h1, h2⟩, waitForPage_exhausted pageRefused "http://localhost:10555" h1 h2⟩

/-- The exit code of the subprocess-exit case: 1 for an error, 0 for nil. -/
theorem meteorExitCase_exit (a : App) (err : Option WaitError) :
    (meteorExitCase a err).exit = some (if err.isSome then 1 else 0) := by
  cases err with
  | none => simp [meteorExitCase]
  | some e =>
    cases e with
    | exitError c => by_cases h : c = 0 <;> simp [meteorExitCase, h]
    | other m => simp [meteorExitCase]

/-- A loop whose context is live and whose two channels are empty stays where
it is along any number of passes through its `select`: no case is ready. -/
theorem runLoop_idle (a : App) (logs : List LogEntry) (sched : List Action)
    (h1 : a.testsResult.buf = []) (h2 : a.meteorExit.buf = [])
    (hs : ∀ act ∈ sched, act.isPick = true) :
    runLoop (.waiting a false logs) sched = .waiting a false logs := by
  induction sched with
  | nil => rfl
  | cons act rest ih =>
    rw [runLoop_cons]
    have hstep : Loop.step (.waiting a false logs) act = .waiting a false logs := by
      cases act with
      | cancel => exact absurd (hs _ (List.mem_cons_self _ _)) (by simp [Action.isPick])
      | exited err => exact absurd (hs _ (List.mem_cons_self _ _)) (by simp [Action.isPick])
      | publish code => exact absurd (hs _ (List.mem_cons_self _ _)) (by simp [Action.isPick])
      | pick c => cases c <;> simp [Loop.step, selectPass, Chan.tryRecv, h1, h2]
    rw [hstep]
    exact ih (fun x hx => hs x (List.mem_cons_of_mem _ hx))

/-- The part of `startBrowser` after the page has loaded publishes nothing
when `waitForTests` returns an error. -/
theorem monitorTests_failure (env : BrowserEnv) (a : App) (code : Int) (err : Error)
    (h : (waitForTests env.lib env.polls).1 = some (code, some err)) :
    (monitorTests env a).1 = a := by
  unfold monitorTests
  simp only [h]

/-- The part of `startBrowser` from the navigation on publishes nothing when
`waitForPage` or `waitForTests` returns an error. -/
theorem loadAndMonitor_failure (env : BrowserEnv) (a : App)
    (hfail : (waitForPage env.page ("http://localhost:" ++ Itoa a.port)).1 ≠ none ∨
      ∃ code err, (waitForTests env.lib env.polls).1 = some (code, some err)) :
    (loadAndMonitor env a).1 = a := by
  unfold loadAndMonitor
  cases hnav : (waitForPage env.page ("http://localhost:" ++ Itoa a.port)).1 with
  | some err => simp only [hnav]
  | none =>
    simp only [hnav]
    rcases hfail with h | ⟨code, err, h⟩
    · exact absurd hnav h
    · exact monitorTests_failure env a code err h

/-- When `waitForPage` or `waitForTests` returns an error, `startBrowser`
leaves the application as it was, but for the browser and the page it may have
stored. -/
theorem startBrowser_failure (env : BrowserEnv) (a : App)
    (hfail : (waitForPage env.page ("http://localhost:" ++ Itoa a.port)).1 ≠ none ∨
      ∃ code err, (waitForTests env.lib env.polls).1 = some (code, some err)) :
    (startBrowser env a).1 = a ∨
    ∃ (b : Browser) (p : Page),
      (startBrowser env a).1 = { a with browser := some b, page := some p } := by
  unfold startBrowser
  cases env.launch with
  | error e => exact Or.inl rfl
  | ok url =>
    cases env.connect with
    | some e => exact Or.inl rfl
    | none =>
      cases env.openPage with
      | error e => exact Or.inl rfl
      | ok page =>
        refine Or.inr ⟨⟨url⟩, page, ?_⟩
        exact loadAndMonitor_failure env { a with browser := some ⟨url⟩, page := some page } hfail

/-- A loop whose context is live and whose two one-slot channels are empty has
not returned after any number of passes through its `select`, and returns
afterwards on the cancellation (0), on the subprocess exit (1 or 0) and, in
once mode, on a published result (that result). -/
theorem idle_loop_exits (a : App) (logs : List LogEntry) (sched : List Action)
    (h1 : a.testsResult = Chan.make 1) (h2 : a.meteorExit = Chan.make 1)
    (hs : ∀ act ∈ sched, act.isPick = true) :
    (runLoop (.waiting a false logs) sched).exitCode = none ∧
    (runLoop (.waiting a false logs) (sched ++ [.cancel, .pick .ctxDone])).exitCode = some 0 ∧
    (∀ err : Option WaitError,
      (runLoop (.waiting a false logs) (sched ++ [.exited err, .pick .meteorExit])).exitCode
        = some (if err.isSome then 1 else 0)) ∧
    (∀ c : Int, a.cfg.Once = true →
      (runLoop (.waiting a false logs) (sched ++ [.publish c, .pick .testsResult])).exitCode
        = some c) := by
  have hidle := runLoop_idle a logs sched (by rw [h1]; rfl) (by rw [h2]; rfl) hs
  refine ⟨by rw [hidle]; rfl, ?_, ?_, ?_⟩
  · rw [runLoop_append, hidle]
    simp [runLoop, Loop.step, selectPass, Loop.exitCode]
  · intro err
    rw [runLoop_append, hidle]
    have hx := meteorExitCase_exit { a with meteorExit := Chan.make 1 } err
    simp only [runLoop, List.foldl_cons, List.foldl_nil, Loop.step, notifyExit, h2,
      Chan.trySend, Chan.make, List.length_nil, Nat.lt_one_iff, if_true, List.nil_append,
      selectPass, Chan.tryRecv]
    simp only [Chan.make] at hx
    simp only [hx, Loop.exitCode]
  · intro c hOnce
    rw [runLoop_append, hidle]
    obtain ⟨cfg, port, cmd, tr, me, sc, so, br, pg⟩ := a
    simp only at h1 hOnce
    subst h1
    by_cases hc : c = 0 <;>
      simp [runLoop, Loop.step, publishResult, Chan.trySend, Chan.make, selectPass,
        Chan.tryRecv, testsResultCase, hOnce, hc, Loop.exitCode]

/-- C20: if `waitForPage` or `waitForTests` returns an error inside
`startBrowser` (navigation retries exhausted, failure-count evaluation error,
cancellation), `startBrowser` publishes nothing: the test-result channel, the
subprocess-exit channel and the configuration are as before. So the failure
gives no exit code to `Run`: with its context live and both channels empty, the
loop has not returned after any number of passes through its `select`, and it
still returns on an external cancellation, on the subprocess exit, or on a
result published later. -/
theorem startBrowser_error_publishes_nothing (env : BrowserEnv) (a : App)
    (hfail : (waitForPage env.page ("http://localhost:" ++ Itoa a.port)).1 ≠ none ∨
      ∃ code err, (waitForTests env.lib env.polls).1 = some (code, some err)) :
    (startBrowser env a).1.testsResult = a.testsResult ∧
    (startBrowser env a).1.meteorExit = a.meteorExit ∧
    (startBrowser env a).1.cfg = a.cfg ∧
    (∀ (logs : List LogEntry) (sched : List Action),
      a.testsResult = Chan.make 1 → a.meteorExit = Chan.make 1 →
      (∀ act ∈ sched, act.isPick = true) →
      (runLoop (.waiting (startBrowser env a).1 false logs) sched).exitCode = none ∧
      (runLoop (.waiting (startBrowser env a).1 false logs)
        (sched ++ [.cancel, .pick .ctxDone])).exitCode = some 0 ∧
      (∀ err : Option WaitError,
        (runLoop (.waiting (startBrowser env a).1 false logs)
          (sched ++ [.exited err, .pick .meteorExit])).exitCode
          = some (if err.isSome then 1 else 0)) ∧
      (∀ c : Int, a.cfg.Once = true →
        (runLoop (.waiting (startBrowser env a).1 false logs)
          (sched ++ [.publish c, .pick .testsResult])).exitCode = some c)) := by
  have hfields : (startBrowser env a).1.testsResult = a.testsResult ∧
      (startBrowser env a).1.meteorExit = a.meteorExit ∧
      (startBrowser env a).1.cfg = a.cfg := by
    rcases startBrowser_failure env a hfail with h | ⟨b, p, h⟩ <;> rw [h] <;> exact ⟨rfl, rfl, rfl⟩
  refine ⟨hfields.1, hfields.2.1, hfields.2.2, ?_⟩
  intro logs sched h1 h2 hs
  have h := idle_loop_exits (startBrowser env a).1 logs sched (hfields.1.trans h1)
    (hfields.2.1.trans h2) hs
  rw [hfields.2.2] at h
  exact h

/-- C20 on two runs of a fresh once-mode application: the test server never
answers, and the failure count cannot be evaluated. In both the result channel
stays empty and the loop has not returned after three passes. -/
theorem startBrowser_error_publishes_nothing_witness :
    ((waitForPage browserNoServer.page
        ("http://localhost:" ++ Itoa (New { Once := true }).port)).1 ≠ none ∧
      (startBrowser browserNoServer (New { Once := true })).1.testsResult
        = (New { Once := true }).testsResult) ∧
    ((∃ code err, (waitForTests browserEvalFails.lib browserEvalFails.polls).1
        = some (code, some err)) ∧
      (startBrowser browserEvalFails (New { Once := true })).1.testsResult
        = (New { Once := true }).testsResult ∧
      (runLoop (.waiting (startBrowser browserEvalFails (New { Once := true })).1 false [])
        [.pick .testsResult, .pick .meteorExit, .pick .ctxDone]).exitCode = none) :=
  have h1 : (waitForPage browserNoServer.page
      ("http://localhost:" ++ Itoa (New { Once := true }).port)).1 ≠ none := by decide
  have h2 : ∃ code err, (waitForTests browserEvalFails.lib browserEvalFails.polls).1
      = some (code, some err) := ⟨1, .other "target closed", by decide⟩
  ⟨⟨h1, (startBrowser_error_publishes_nothing browserNoServer (New { Once := true })
      (Or.inl h1)).1⟩,
   ⟨h2, (startBrowser_error_publishes_nothing browserEvalFails (New { Once := true })
      (Or.inr h2)).1,
    ((startBrowser_error_publishes_nothing browserEvalFails (New { Once := true })
      (Or.inr h2)).2.2.2 [] [.pick .testsResult, .pick .meteorExit, .pick .ctxDone] rfl rfl
      (by decide)).1⟩⟩

/-! ## Properties of the output streamer -/

/-- The launches in a trace made of two parts. -/
theorem launches_append (t1 t2 : List StreamEffect) :
    launches (t1 ++ t2) = launches t1 + launches t2 := by
  simp [launches, List.countP_append]

/-- What the relay of one line does to the launch latch: it launches the
browser exactly when ready detection is on, the line is non-empty and contains
a ready marker, and the latch has not fired; the latch has fired afterwards if
it had before or if such a line was seen. -/
theorem relayLine_launch (a : App) (w : Sink) (detectReady : Bool) (line : String)
    (writeErr : Option String) :
    launches (relayLine a w detectReady line writeErr).2
        = (if (detectReady && !decide (line = "") && containsMarkerIn line readyMarkers
              && !a.startChromeOnce) = true then 1 else 0) ∧
    (relayLine a w detectReady line writeErr).1.startChromeOnce
        = (a.startChromeOnce
            || (detectReady && !decide (line = "") && containsMarkerIn line readyMarkers)) := by
  unfold relayLine containsReadyMarker
  by_cases hl : line = ""
  · simp [hl, launches]
  · cases detectReady <;> cases hm : containsMarkerIn line readyMarkers <;>
      cases ho : a.startChromeOnce <;> cases writeErr <;>
      simp [hl, hm, ho, launches, List.countP_cons]

/-- What one iteration of a streamer does to the launch latch, and whether the
streamer goes on: it does unless it met the cancellation or a read error. -/
theorem streamIteration_launch (a : App) (w : Sink) (detectReady : Bool) (line : String)
    (err : Option ReadError) (writeErr : Option String) :
    launches (streamIteration a w detectReady (.read line err writeErr)).1.2
        = (if (detectReady && !decide (line = "") && containsMarkerIn line readyMarkers
              && !a.startChromeOnce) = true then 1 else 0) ∧
    (streamIteration a w detectReady (.read line err writeErr)).1.1.startChromeOnce
        = (a.startChromeOnce
            || (detectReady && !decide (line = "") && containsMarkerIn line readyMarkers)) ∧
    (streamIteration a w detectReady (.read line err writeErr)).2 = !err.isSome := by
  obtain ⟨h1, h2⟩ := relayLine_launch a w detectReady line writeErr
  unfold streamIteration
  cases err with
  | none => exact ⟨h1, h2, rfl⟩
  | some e =>
    cases e with
    | eof =>
      refine ⟨?_, h2, rfl⟩
      simp only [launches_append, h1]
      simp [launches]
    | other msg =>
      refine ⟨?_, h2, rfl⟩
      simp only [launches_append, h1]
      simp [launches]

/-- The number of launches still to come from a state of the two streamers
along an interleaving: one if the latch has not fired, the standard output
streamer is still running and a line it will read contains a ready marker;
none otherwise. -/
theorem step_launches (s : Streams) (ev : Sink × StreamRead)
    (rest : List (Sink × StreamRead)) :
    launches (s.step ev).trace
        + (if (!(s.step ev).app.startChromeOnce && (s.step ev).outLive
              && (linesRead (readsOf .stdout rest)).any
                  (fun l => containsMarkerIn l readyMarkers)) = true then 1 else 0)
      = launches s.trace
        + (if (!s.app.startChromeOnce && s.outLive
              && (linesRead (readsOf .stdout (ev :: rest))).any
                  (fun l => containsMarkerIn l readyMarkers)) = true then 1 else 0) := by
  obtain ⟨w, r⟩ := ev
  obtain ⟨app, outLive, errLive, trace⟩ := s
  generalize hL : (linesRead (readsOf .stdout rest)).any
    (fun l => containsMarkerIn l readyMarkers) = L
  cases w with
  | stderr =>
    have hr : readsOf .stdout ((Sink.stderr, r) :: rest) = readsOf .stdout rest := by
      simp [readsOf]
    rw [hr, hL]
    cases errLive with
    | false => simp [Streams.step]
    | true =>
      cases r with
      | ctxDone => simp [Streams.step, streamIteration, launches_append, launches]
      | read line err writeErr =>
        obtain ⟨h1, h2, _⟩ := streamIteration_launch app .stderr false line err writeErr
        simp only [Bool.false_and, Bool.or_false] at h1 h2
        simp only [Streams.step, if_true, launches_append, h1, h2]
        simp
  | stdout =>
    have hr : readsOf .stdout ((Sink.stdout, r) :: rest) = r :: readsOf .stdout rest := by
      simp [readsOf]
    rw [hr]
    cases outLive with
    | false => simp [Streams.step]
    | true =>
      cases r with
      | ctxDone => simp [Streams.step, streamIteration, linesRead, launches_append, launches]
      | read line err writeErr =>
        obtain ⟨h1, h2, h3⟩ := streamIteration_launch app .stdout true line err writeErr
        simp only [Streams.step, if_true, launches_append, h1, h2, h3, linesRead]
        by_cases hl : line = "" <;> cases hm : containsMarkerIn line readyMarkers <;>
          cases ho : app.startChromeOnce <;> cases err <;> cases L <;>
          simp [hl, hm, ho, hL]

/-- The launches made by the two streamers from any state along an
interleaving. -/
theorem foldl_launches (events : List (Sink × StreamRead)) :
    ∀ s : Streams,
      launches (events.foldl Streams.step s).trace
        = launches s.trace
          + (if (!s.app.startChromeOnce && s.outLive
                && (linesRead (readsOf .stdout events)).any
                    (fun l => containsMarkerIn l readyMarkers)) = true then 1 else 0) := by
  induction events with
  | nil => intro s; simp [readsOf, linesRead]
  | cons ev rest ih =>
    intro s
    rw [List.foldl_cons, ih (s.step ev), step_launches]

/-- C17: for every interleaving of the lines streamed from the standard output
and the standard error of the subprocess in one run, the browser launch is
triggered at most once; it is triggered exactly once if and only if some line
read from standard output contains a ready marker, so that every later
matching line is ignored; and lines on standard error, streamed with
`detectReady = false`, never trigger it. -/
theorem browser_launched_at_most_once (a : App) (events : List (Sink × StreamRead)) :
    launches (runStreams a events).trace ≤ 1 ∧
    (a.startChromeOnce = false →
      (launches (runStreams a events).trace = 1 ↔
        ∃ line ∈ linesRead (readsOf .stdout events), containsReadyMarker a line = true)) ∧
    (a.startChromeOnce = false →
      (launches (runStreams a events).trace = 0 ↔
        ∀ line ∈ linesRead (readsOf .stdout events), containsReadyMarker a line = false)) ∧
    ((∀ ev ∈ events, ev.1 = Sink.stderr) → launches (runStreams a events).trace = 0) := by
  have h := foldl_launches events ⟨a, true, true, []⟩
  have h0 : launches ([] : List StreamEffect) = 0 := rfl
  simp only [h0, Nat.zero_add, Bool.and_true] at h
  have hrun : launches (runStreams a events).trace
      = (if (!a.startChromeOnce
              && (linesRead (readsOf .stdout events)).any
                  (fun l => containsMarkerIn l readyMarkers)) = true then 1 else 0) := h
  refine ⟨?_, ?_, ?_, ?_⟩
  · rw [hrun]; split <;> omega
  · intro ho
    rw [hrun, ho]
    simp only [Bool.not_false, Bool.true_and, List.any_eq_true, containsReadyMarker]
    constructor
    · intro h1
      by_contra hne
      rw [if_neg hne] at h1
      exact absurd h1 (by decide)
    · intro h1; rw [if_pos h1]
  · intro ho
    rw [hrun, ho]
    simp only [Bool.not_false, Bool.true_and, List.any_eq_true, containsReadyMarker]
    constructor
    · intro h1 line hline
      by_contra hne
      have hm : containsMarkerIn line readyMarkers = true := by
        cases hc : containsMarkerIn line readyMarkers
        · exact absurd hc hne
        · rfl
      rw [if_pos ⟨line, hline, hm⟩] at h1
      exact absurd h1 (by decide)
    · intro h1
      rw [if_neg]
      rintro ⟨line, hline, hm⟩
      rw [h1 line hline] at hm
      exact absurd hm (by decide)
  · intro hall
    have hr : readsOf .stdout events = [] := by
      unfold readsOf
      rw [List.filterMap_eq_nil_iff]
      intro ev hev
      simp [hall ev hev]
    rw [hrun, hr]
    simp [linesRead]

/-- C17 on a subprocess that prints two matching lines on standard output and
one on standard error: one launch; and on one that prints matching lines on
standard error only: no launch. -/
theorem browser_launched_at_most_once_witness :
    ((New {}).startChromeOnce = false ∧
      (∃ line ∈ linesRead (readsOf .stdout readyOutput),
        containsReadyMarker (New {}) line = true) ∧
      launches (runStreams (New {}) readyOutput).trace = 1) ∧
    ((∀ ev ∈ stderrOnlyOutput, ev.1 = Sink.stderr) ∧
      launches (runStreams (New {}) stderrOnlyOutput).trace = 0) :=
  have h1 : ∃ line ∈ linesRead (readsOf .stdout readyOutput),
      containsReadyMarker (New {}) line = true :=
    ⟨"10015\n", by decide, by decide⟩
  have h2 : ∀ ev ∈ stderrOnlyOutput, ev.1 = Sink.stderr := by decide
  ⟨⟨rfl, h1, ((browser_launched_at_most_once (New {}) readyOutput).2.1 rfl).mpr h1⟩,
   ⟨h2, (browser_launched_at_most_once (New {}) stderrOnlyOutput).2.2.2 h2⟩⟩

/-! ## Properties of `Terminate` -/

/-- The single-process branch returns nil when the termination signal is
answered by "process already done" or "no such process". -/
theorem terminateProcess_gone (env : ProcEnv) (pid : Int) (err : ProcessError)
    (hs : env.signal pid .sigterm = some err)
    (he : err = .done ∨ err = .errno .esrch) :
    terminateProcess env pid
      = (none, [.log ⟨.trace, "sending SIGTERM to individual process", []⟩,
                .signal pid .sigterm]) := by
  unfold terminateProcess
  rcases he with rfl | rfl <;> simp [hs, ProcessError.isProcessDone, ProcessError.isESRCH]

/-- C18: `Terminate` returns nil and has no effect at all, so sends no signal,
when the command is nil or has no started process. For a process that has
already exited it also returns nil: when the process-group lookup reports "no
such process" and the termination signal is answered by "process already done"
or "no such process", and when the group is still found but both group
signals are answered by "no such process". -/
theorem Terminate_noop_when_gone (env : ProcEnv) :
    Terminate env none = (none, []) ∧
    (∀ cmd : Cmd, cmd.process = none → Terminate env (some cmd) = (none, [])) ∧
    (∀ (cmd : Cmd) (pid : Int) (err : ProcessError), cmd.process = some pid →
      env.getpgid pid = .error .esrch → env.signal pid .sigterm = some err →
      (err = .done ∨ err = .errno .esrch) →
      (Terminate env (some cmd)).1 = none ∧
      ((Terminate env (some cmd)).2.filter ProcEffect.isSignal = [.signal pid .sigterm])) ∧
    (∀ (cmd : Cmd) (pid pgid : Int), cmd.process = some pid →
      env.getpgid pid = .ok pgid → pgid > 0 →
      env.kill (-pgid) .sigterm = some .esrch → env.kill (-pgid) .sigkill = some .esrch →
      (Terminate env (some cmd)).1 = none) := by
  refine ⟨rfl, ?_, ?_, ?_⟩
  · intro cmd h
    simp [Terminate, h]
  · intro cmd pid err hp hg hs he
    have ht := terminateProcess_gone env pid err hs he
    simp [Terminate, hp, hg, ht, ProcEffect.isSignal]
  · intro cmd pid pgid hp hg hpos hk1 hk2
    simp [Terminate, hp, hg, hpos, terminateGroup, hk1, hk2]

/-- C18 on the repository's tests (a nil command, a command that was never
started) and on a process that is gone when `Terminate` is called. -/
theorem Terminate_noop_when_gone_witness :
    Terminate processGone none = (none, []) ∧
    ((⟨"sleep", ["1"], none⟩ : Cmd).process = none ∧
      Terminate processGone (some ⟨"sleep", ["1"], none⟩) = (none, [])) ∧
    (((⟨"meteor", [], some 4242⟩ : Cmd).process = some 4242 ∧
        processGone.getpgid 4242 = .error .esrch ∧
        processGone.signal 4242 .sigterm = some .done ∧
        (ProcessError.done = .done ∨ ProcessError.done = .errno .esrch)) ∧
      (Terminate processGone (some ⟨"meteor", [], some 4242⟩)).1 = none) :=
  ⟨(Terminate_noop_when_gone processGone).1,
   ⟨rfl, (Terminate_noop_when_gone processGone).2.1 ⟨"sleep", ["1"], none⟩ rfl⟩,
   ⟨⟨rfl, rfl, rfl, Or.inl rfl⟩,
    ((Terminate_noop_when_gone processGone).2.2.1 ⟨"meteor", [], some 4242⟩ 4242 .done
      rfl rfl rfl (Or.inl rfl)).1⟩⟩

/-! ## The delay between navigation attempts -/

/-- The navigation loop of `internal/app/browser.go` never calls
`time.Sleep`. -/
theorem waitForPageLoop_no_sleep (env : PageEnv) (url : String) (remaining : Nat) :
    ∀ (attempt : Nat) (lastErr : Option Error),
      (waitForPageLoop env url remaining attempt lastErr).2.any BrowserEffect.isSleep
        = false := by
  induction remaining with
  | zero => intro attempt lastErr; simp [waitForPageLoop]
  | succ r ih =>
    intro attempt lastErr
    rw [waitForPageLoop]
    by_cases hc : env.ctxDone attempt = true
    · simp [hc, BrowserEffect.isSleep]
    · simp only [hc]
      cases hn : env.navigate attempt with
      | some err => simp [List.any_cons, BrowserEffect.isSleep, ih]
      | none =>
        cases hw : env.waitLoad attempt with
        | some err => simp [List.any_cons, BrowserEffect.isSleep, ih]
        | none => simp [List.any_cons, BrowserEffect.isSleep]

/-- In a trace without any `time.Sleep`, every gap between two consecutive
navigation attempts is empty. -/
theorem gapsFrom_no_sleep (trace : List BrowserEffect)
    (h : ∀ e ∈ trace, e.isSleep = false) :
    ∀ cur : Option (List Nat), (∀ d, cur = some d → d = []) →
      ∀ g ∈ gapsFrom cur trace, g = [] := by
  induction trace with
  | nil => intro cur _ g hg; simp [gapsFrom] at hg
  | cons e rest ih =>
    intro cur hcur g hg
    have hrest : ∀ x ∈ rest, x.isSleep = false := fun x hx => h x (List.mem_cons_of_mem _ hx)
    cases e with
    | navigate u =>
      simp only [gapsFrom, List.mem_append] at hg
      rcases hg with hg | hg
      · cases cur with
        | none => simp at hg
        | some d =>
          simp only [List.mem_singleton] at hg
          rw [hg]; exact hcur d rfl
      · exact ih hrest (some []) (fun d hd => by simpa using hd.symm) g hg
    | sleep ms =>
      have := h (.sleep ms) (List.mem_cons_self _ _)
      simp [BrowserEffect.isSleep] at this
    | log l => exact ih hrest cur hcur g (by simpa [gapsFrom] using hg)
    | println l => exact ih hrest cur hcur g (by simpa [gapsFrom] using hg)
    | launch => exact ih hrest cur hcur g (by simpa [gapsFrom] using hg)
    | connect u => exact ih hrest cur hcur g (by simpa [gapsFrom] using hg)
    | openPage => exact ih hrest cur hcur g (by simpa [gapsFrom] using hg)
    | eachEvent => exact ih hrest cur hcur g (by simpa [gapsFrom] using hg)
    | stopConsole => exact ih hrest cur hcur g (by simpa [gapsFrom] using hg)
    | waitLoad => exact ih hrest cur hcur g (by simpa [gapsFrom] using hg)

/-- In the legacy navigation loop of `src/main.go`, every gap between two
consecutive navigation attempts holds exactly one delay, of one second. -/
theorem Legacy.waitForPageLoop_gaps (env : PageEnv) (url : String) (remaining : Nat) :
    ∀ (attempt : Nat) (lastErr : Option Error),
      (∀ g ∈ gapsFrom (some [1000]) (Legacy.waitForPageLoop env url remaining attempt lastErr).2,
        g = [1000]) ∧
      (∀ g ∈ gapsFrom none (Legacy.waitForPageLoop env url remaining attempt lastErr).2,
        g = [1000]) := by
  induction remaining with
  | zero => intro attempt lastErr; simp [Legacy.waitForPageLoop, gapsFrom]
  | succ r ih =>
    intro attempt lastErr
    rw [Legacy.waitForPageLoop]
    by_cases hc : env.ctxDone attempt = true
    · simp [hc, gapsFrom]
    · simp only [hc]
      cases hn : env.navigate attempt with
      | some err =>
        obtain ⟨h1, _⟩ := ih (attempt + 1) (some err)
        simp only [gapsFrom, Option.map_some', List.nil_append, List.mem_append,
          List.mem_singleton, List.not_mem_nil, false_or]
        exact ⟨fun g hg => hg.elim id (h1 g), fun g hg => h1 g hg⟩
      | none =>
        cases hw : env.waitLoad attempt with
        | some err =>
          obtain ⟨h1, _⟩ := ih (attempt + 1) (some err)
          simp only [gapsFrom, Option.map_some', List.nil_append, List.mem_append,
            List.mem_singleton, List.not_mem_nil, false_or]
          exact ⟨fun g hg => hg.elim id (h1 g), fun g hg => h1 g hg⟩
        | none => simp [gapsFrom]

/-- The legacy `waitForPage` of `src/main.go` does what the specification
says: between any two consecutive navigation attempts there is exactly one
delay, always of one second. -/
theorem Legacy.waitForPage_fixed_delay (env : PageEnv) (url : String) :
    ∀ g ∈ gaps (Legacy.waitForPage env url).2, g = [1000] :=
  (Legacy.waitForPageLoop_gaps env url 10 0 none).2

/-- C22 (defect of the code): the `waitForPage` of `internal/app/browser.go`
never waits between navigation attempts. In every execution its trace holds no
`time.Sleep`, so every gap between two consecutive attempts is empty; against a
test server that refuses every connection it makes its 10 attempts back to
back (9 gaps, no delay in any), where the copy of the same function in
`src/main.go` sleeps one second in each of the 9 gaps. -/
theorem waitForPage_retries_without_delay (env : PageEnv) (url : String) :
    (∀ e ∈ (waitForPage env url).2, e.isSleep = false) ∧
    (∀ g ∈ gaps (waitForPage env url).2, g = []) ∧
    navigations (waitForPage pageRefused "http://localhost:10555").2 = 10 ∧
    gaps (waitForPage pageRefused "http://localhost:10555").2 = List.replicate 9 [] ∧
    gaps (Legacy.waitForPage pageRefused "http://localhost:10555").2
      = List.replicate 9 [1000] := by
  have h : ∀ e ∈ (waitForPage env url).2, e.isSleep = false := by
    intro e he
    have hany := waitForPageLoop_no_sleep env url 10 0 none
    rw [List.any_eq_false] at hany
    simpa using hany e he
  refine ⟨h, ?_, by decide, by decide, by decide⟩
  exact gapsFrom_no_sleep _ h none (fun d hd => by simp at hd)

/-! ## The browser at shutdown -/

/-- The method `App.Shutdown` closes no browser when the application holds
none. -/
theorem Shutdown_without_browser (senv : ShutdownEnv) (a : App) (h : a.browser = none) :
    ∀ b : Browser, Effect.browserClose b ∉ (Shutdown senv a).2 := by
  intro b
  obtain ⟨cfg, port, cmd, tr, me, sc, so, br, pg⟩ := a
  obtain ⟨e1, e2, e3⟩ := senv
  simp only at h
  subst h
  cases so <;> cases cmd <;> cases pg <;> cases e1 <;> cases e2 <;>
    simp [Shutdown, shutdownMeteor, shutdownPage, shutdownBrowser]

/-- When the browser has been launched and connected and its page cannot be
opened, `startBrowser` returns with the application unchanged: the connected
browser is not stored on it. -/
theorem startBrowser_page_fails (env : BrowserEnv) (a : App) (url : String) (err : Error)
    (hl : env.launch = .ok url) (hc : env.connect = none) (hp : env.openPage = .error err) :
    (startBrowser env a).1 = a ∧ BrowserEffect.connect url ∈ (startBrowser env a).2 := by
  unfold startBrowser
  simp [hl, hc, hp]

/-- The statements of `startBrowser` from the navigation on leave the stored
browser, the stored page and the shutdown latch as they are. -/
theorem loadAndMonitor_keeps_handles (env : BrowserEnv) (a : App) :
    (loadAndMonitor env a).1.browser = a.browser ∧
    (loadAndMonitor env a).1.page = a.page ∧
    (loadAndMonitor env a).1.shutdownOnce = a.shutdownOnce := by
  have hpub : ∀ code : Int, (publishResult a code).1.browser = a.browser ∧
      (publishResult a code).1.page = a.page ∧
      (publishResult a code).1.shutdownOnce = a.shutdownOnce := by
    intro code
    unfold publishResult
    cases a.testsResult.trySend code <;> simp <;> split <;> exact ⟨rfl, rfl, rfl⟩
  have hmon : (monitorTests env a).1.browser = a.browser ∧
      (monitorTests env a).1.page = a.page ∧
      (monitorTests env a).1.shutdownOnce = a.shutdownOnce := by
    unfold monitorTests
    cases hw : (waitForTests env.lib env.polls).1 with
    | none => simp [hw]
    | some r =>
      obtain ⟨code, e⟩ := r
      cases e with
      | none => simpa [hw] using hpub code
      | some err => simp [hw]
  unfold loadAndMonitor
  cases hnav : (waitForPage env.page ("http://localhost:" ++ Itoa a.port)).1 with
  | some err => simp [hnav]
  | none => simpa [hnav] using hmon

/-- When the page opens, the browser that `startBrowser` connected to is
stored on the application, and the first `Shutdown` closes it. -/
theorem startBrowser_page_opens (env : BrowserEnv) (senv : ShutdownEnv) (a : App)
    (url : String) (page : Page) (hl : env.launch = .ok url) (hc : env.connect = none)
    (hp : env.openPage = .ok page) (ho : a.shutdownOnce = false) :
    (startBrowser env a).1.browser = some ⟨url⟩ ∧
    Effect.browserClose ⟨url⟩ ∈ (Shutdown senv (startBrowser env a).1).2 := by
  have hb : (startBrowser env a).1.browser = some ⟨url⟩ ∧
      (startBrowser env a).1.shutdownOnce = false := by
    unfold startBrowser
    simp only [hl, hc, hp]
    obtain ⟨h1, _, h3⟩ := loadAndMonitor_keeps_handles env
      { a with browser := some ⟨url⟩, page := some page }
    exact ⟨h1, h3.trans ho⟩
  refine ⟨hb.1, ?_⟩
  have hcalls := (Shutdown_first_call senv (startBrowser env a).1 hb.2).2.2.2
  have hin : Effect.browserClose ⟨url⟩ ∈ calls (Shutdown senv (startBrowser env a).1).2 := by
    rw [hcalls, hb.1]
    simp
  exact (List.mem_filter.mp hin).1

/-- C21 (defect of the code): a browser that `startBrowser` launched and
connected to is not closed by `Shutdown` when opening its page fails.
`startBrowser` returns before storing the browser on the application, which is
left without a browser, so `Shutdown`, whatever its release calls answer,
closes none. When the page opens, the same browser is closed by `Shutdown`. -/
theorem connected_browser_leaks_when_page_fails :
    BrowserEffect.launch ∈ (startBrowser browserPageFails (New {})).2 ∧
    BrowserEffect.connect "ws://127.0.0.1:9222" ∈ (startBrowser browserPageFails (New {})).2 ∧
    (startBrowser browserPageFails (New {})).1.browser = none ∧
    (∀ (senv : ShutdownEnv) (b : Browser),
      Effect.browserClose b ∉ (Shutdown senv (startBrowser browserPageFails (New {})).1).2) ∧
    calls (Shutdown {} (startBrowser browserPageFails (New {})).1).2 = [] ∧
    Effect.browserClose ⟨"ws://127.0.0.1:9222"⟩
      ∈ (Shutdown {} (startBrowser browserEvalFails (New {})).1).2 := by
  refine ⟨by decide, by decide, by decide, ?_, by decide, by decide⟩
  intro senv b
  exact Shutdown_without_browser senv _ (by decide) b

/-! ## The subprocess when `Run` returns -/

/-- Whatever the interleaving with `Terminate`, the kill by the cancelled
context is among the calls that reach a subprocess that has not completed. -/
theorem contextKill_mem_exitEffects (env : ProcEnv) (senv : ShutdownEnv) (watcherAt : Nat)
    (a : App) (cmd : Cmd) (pid : Int) (h : a.meteorCmd = some cmd)
    (hp : cmd.process = some pid) :
    ProcEffect.processKill pid ∈ signalsSent (exitEffects env senv false watcherAt a) := by
  unfold signalsSent exitEffects contextKill
  simp [h, hp, ProcEffect.isSignal]

/-- The run that ends on the external cancellation returns 0 on the started
application. -/
theorem Run_cancelled :
    Run noFreePort meteorStarts (New onceConfig) [.cancel, .pick .ctxDone]
      = .returned 0 startedApp
          [⟨.debug, "context cancelled, initiating shutdown", []⟩,
           ⟨.info, "signal received, shutting down", []⟩] := by
  decide

/-- The once-mode run that ends on a test result of 3 failures returns 3 on
the started application. -/
theorem Run_finished :
    Run noFreePort meteorStarts (New onceConfig) [.publish 3, .pick .testsResult]
      = .returned 3 startedApp
          [⟨.trace, "dispatched test result to channel", [("status", "3")]⟩,
           ⟨.trace, "testsResult received from browser monitoring", [("status", "3")]⟩,
           ⟨.info, "tests finished", [("status", "3")]⟩] := by
  decide

/-- C23 (defect of the code): `Run` returning does kill the subprocess. The
command is made with `exec.CommandContext(meteorCtx, ...)` and `Run` cancels
`meteorCtx` when it returns, so `os/exec` sends SIGKILL to the subprocess if it
is still running, on its own and without any grace interval. On the exit path
of the external cancellation and on that of a once-mode test result, with the
subprocess alive, this kill is among the signals the subprocess receives
wherever it falls among the calls of `Terminate`; when it falls first, the
first signal received is this SIGKILL and not the graceful signal to the
process group. `Terminate` alone sends the two-phase sequence only, and so does
the exit path on which the subprocess had already exited. -/
theorem Run_return_kills_subprocess (watcherAt : Nat) (senv : ShutdownEnv) :
    (∃ trace : List ProcEffect,
      Main noFreePort meteorStarts processAlive senv watcherAt onceConfig
          [.cancel, .pick .ctxDone] = some (0, trace) ∧
      ProcEffect.processKill 4242 ∈ signalsSent trace) ∧
    (∃ trace : List ProcEffect,
      Main noFreePort meteorStarts processAlive senv watcherAt onceConfig
          [.publish 3, .pick .testsResult] = some (3, trace) ∧
      ProcEffect.processKill 4242 ∈ signalsSent trace) ∧
    (Main noFreePort meteorStarts processAlive {} 0 onceConfig
        [.cancel, .pick .ctxDone]).map (fun r => signalsSent r.2)
      = some [.processKill 4242, .kill (-4242) .sigterm, .kill (-4242) .sigkill] ∧
    contextKill false startedApp.meteorCmd = [.processKill 4242] ∧
    signalsSent (Terminate processAlive startedApp.meteorCmd).2
      = [.kill (-4242) .sigterm, .kill (-4242) .sigkill] ∧
    (Main noFreePort meteorStarts processAlive {} 0 onceConfig
        [.exited none, .pick .meteorExit]).map (fun r => signalsSent r.2)
      = some [.kill (-4242) .sigterm, .kill (-4242) .sigkill] := by
  have hcmd : startedApp.meteorCmd
      = some ⟨"meteor", meteorArgs
          { cfg := onceConfig, port := 10555, testsResult := Chan.make 1,
            meteorExit := Chan.make 1 }, some 4242⟩ := by decide
  refine ⟨⟨_, ?_, contextKill_mem_exitEffects processAlive senv watcherAt startedApp _ 4242
      hcmd rfl⟩,
    ⟨_, ?_, contextKill_mem_exitEffects processAlive senv watcherAt startedApp _ 4242
      hcmd rfl⟩, by decide, by decide, by decide, by decide⟩
  · unfold Main
    rw [Run_cancelled]
    rfl
  · unfold Main
    rw [Run_finished]
    rfl

end Mtest
